import Mathlib

/-!
# PicoVoiceMessage: FIR filter and voice pipeline

A shallow embedding of `FirFilter.{h,cpp}` and `VoiceMessage.{h,cpp}`.

* `std::vector<T>` is a `List`; `v[i]` is `List.getD v i 0`, `v[i] = x` is `List.set`.
* `float` values are rationals. The filter is generic in the sample type `α` (only `0`, `+`,
  `*` are used by the code) and the pipeline instantiates it with `ℚ`; the arithmetic that maps
  the filter output to the output driver rounds every result to binary32 (`roundF32`).
* `size_t`, `uint32_t` are `Nat`; the one counter that is incremented without bound
  (`_sampleCount`) wraps modulo `2 ^ 32` explicitly.
* Peripheral calls (`pwm_set_enabled`, `gpio_put`, `pwm_set_gpio_level`,
  `add_repeating_timer_us`, `adc_read`) become fields of the state or arguments of the
  operation.
-/

/-! ## FirFilter -/

/-- The private members of `class FirFilter`: `_coeffs`, `_buffer`, `_bufferIndex`. -/
structure FirFilter (α : Type) where
  coeffs : List α
  buffer : List α
  bufferIndex : Nat
deriving DecidableEq, Repr

namespace FirFilter

variable {α : Type}

/-- The constructor `FirFilter::FirFilter(coefficients)`:
`_coeffs(coefficients), _buffer(coefficients.size(), 0.0f), _bufferIndex(0)`. -/
def new [Zero α] (coefficients : List α) : FirFilter α :=
  { coeffs := coefficients
    buffer := List.replicate coefficients.length 0
    bufferIndex := 0 }

/-- The body of the `for` loop of `FirFilter::Process`, from the iteration with loop variable `i`
and accumulator `output`; `remaining` is `_coeffs.size() - i`, the number of iterations left.
Each iteration does `output += _coeffs[i] * _buffer[(_bufferIndex + i) % _buffer.size()]`. -/
def processLoop [Zero α] [Add α] [Mul α] (coeffs buffer : List α) (bufferIndex : Nat) :
    (remaining : Nat) → (i : Nat) → (output : α) → α
  | 0, _, output => output
  | remaining + 1, i, output =>
      processLoop coeffs buffer bufferIndex remaining (i + 1)
        (output + coeffs.getD i 0 * buffer.getD ((bufferIndex + i) % buffer.length) 0)

/-- The method `FirFilter::Process(input)`: returns the output sample and the updated filter. -/
def Process [Zero α] [Add α] [Mul α] (f : FirFilter α) (input : α) : α × FirFilter α :=
  -- _buffer[_bufferIndex] = input;
  let buffer := f.buffer.set f.bufferIndex input
  -- float output = 0.0f; for (size_t i = 0; i < _coeffs.size(); ++i) ...
  let output := processLoop f.coeffs buffer f.bufferIndex f.coeffs.length 0 0
  -- _bufferIndex = (_bufferIndex + 1) % _buffer.size();
  (output, { f with buffer := buffer, bufferIndex := (f.bufferIndex + 1) % buffer.length })

/-- The method `FirFilter::Reset()`: `std::fill(_buffer.begin(), _buffer.end(), 0.0f)` and
`_bufferIndex = 0`. -/
def Reset [Zero α] (f : FirFilter α) : FirFilter α :=
  { f with buffer := List.replicate f.buffer.length 0, bufferIndex := 0 }

/-- Feeding a sequence of samples, one `Process` call per sample: the outputs in call order and
the final filter. -/
def processAll [Zero α] [Add α] [Mul α] (f : FirFilter α) : List α → List α × FirFilter α
  | [] => ([], f)
  | x :: xs =>
      let r := f.Process x
      let rest := processAll r.2 xs
      (r.1 :: rest.1, rest.2)

/-- The history invariant of the filter for coefficients `c`, where `past` lists the samples
fed so far, most recent first: the history has one slot per coefficient, the write index is the
number of samples modulo `N`, and the slot `j + 1` places behind the write index holds the
sample fed `j + 1` calls ago (0 when fewer samples have been fed). -/
def HistoryOf [Zero α] (f : FirFilter α) (c : List α) (past : List α) : Prop :=
  f.coeffs = c
  ∧ f.buffer.length = c.length
  ∧ f.bufferIndex = past.length % c.length
  ∧ ∀ j, j < c.length →
      f.buffer.getD ((past.length + c.length - (j + 1)) % c.length) 0 = past.getD j 0

instance [Zero α] [DecidableEq α] (f : FirFilter α) (c past : List α) :
    Decidable (HistoryOf f c past) := by
  unfold HistoryOf; infer_instance

/-- The direct convolution of the specification, written from its words:
`y[n] = Σ_{k = 0}^{min(n, N - 1)} c[k] * x[n - k]`, computed independently of the filter. -/
def directConvolution [Zero α] [Add α] [Mul α] (c x : List α) (n : Nat) : α :=
  ((List.range (min n (c.length - 1) + 1)).map
    (fun k => c.getD k 0 * x.getD (n - k) 0)).foldl (· + ·) 0

end FirFilter

/-! ## VoiceMessage -/

/-- The members of `enum Config` of `class VoiceMessage` that the sample pipeline reads.
`INTERP_RATE` is not a field: the source defines it as `DECIM_RATE`. -/
structure Config where
  DECIM_RATE : Nat
  BUFFER_SIZE : Nat
  PWM_WRAP_VALUE : Nat
deriving DecidableEq, Repr

namespace Config

/-- The source has `INTERP_RATE = DECIM_RATE`. -/
def INTERP_RATE (cfg : Config) : Nat := cfg.DECIM_RATE

/-- The values of the source: `DECIM_RATE = 4`,
`BUFFER_SIZE = MAX_SAMPLES = SAMPLE_RATE * TIME_LENGTH / DECIM_RATE` with
`SAMPLE_RATE = 8000 * 4` and `TIME_LENGTH = 30`, `PWM_WRAP_VALUE = (1 << 10) - 1`. -/
def source : Config :=
  { DECIM_RATE := 4
    BUFFER_SIZE := 8000 * 4 * 30 / 4
    PWM_WRAP_VALUE := 2 ^ 10 - 1 }

end Config

/-- The data members of `class VoiceMessage`, followed by the peripheral state the class drives:
the capacity of `_audioBuffer` (`std::vector::capacity()`), whether the PWM slice is enabled,
the last level written by `pwm_set_gpio_level`, and the LED and multiplexer output lines. -/
structure VoiceMessage where
  timerStarted : Bool
  sampleCount : Nat
  sampleIndex : Nat
  isRecordingMode : Bool
  isBusy : Bool
  audioBuffer : List Int
  audioCapacity : Nat
  lowpassFilter : FirFilter ℚ
  pwmSliceNum : Nat
  pwmEnabled : Bool
  pwmLevel : Nat
  led : Bool
  mpx : Bool
deriving DecidableEq

namespace VoiceMessage

/-- The inline member `Saturate(value, min, max)`. -/
def Saturate (value min max : Int) : Int :=
  if value < min then min else if value > max then max else value

/-- The conversion `static_cast<int16_t>(float)`: the fractional part is discarded (truncation
toward zero). A value outside the range of `int16_t` is undefined in C++; on the target the
conversion instruction saturates to 32 bits and the narrowing keeps the low 16 bits. -/
def castInt16 (q : ℚ) : Int :=
  let t := q.num.tdiv q.den
  let t32 := if t < -(2 ^ 31) then -(2 ^ 31) else if t > 2 ^ 31 - 1 then 2 ^ 31 - 1 else t
  (t32 + 2 ^ 15) % 2 ^ 16 - 2 ^ 15

/-- The conversion `static_cast<int8_t>(int16_t)`: keeps the low 8 bits. -/
def castInt8 (v : Int) : Int := (v + 2 ^ 7) % 2 ^ 8 - 2 ^ 7

/-- The conversion `static_cast<uint16_t>(int16_t)`: reduction modulo `2 ^ 16`. -/
def castUInt16 (v : Int) : Nat := (v % 2 ^ 16).toNat

/-- The call `_audioBuffer.push_back(v)`: appends, and reallocates (the capacity grows to
`size + max(size, 1)`) only when the vector is already full. -/
def pushBack (s : VoiceMessage) (v : Int) : VoiceMessage :=
  { s with
    audioBuffer := s.audioBuffer ++ [v]
    audioCapacity :=
      if s.audioBuffer.length < s.audioCapacity then s.audioCapacity
      else s.audioBuffer.length + max s.audioBuffer.length 1 }

/-- The method `VoiceMessage::Initialize()`: after `gpio_init` the LED and multiplexer lines are
low; `_pwmSliceNum` is the slice of `PWM_GPIO_NUM = 0`, slice 0. -/
def Initialize (s : VoiceMessage) : VoiceMessage :=
  { s with pwmSliceNum := 0, led := false, mpx := false }

/-- The constructor `VoiceMessage::VoiceMessage()`. The table `lowpassCoeffs` of `FilterCoeffs.h`
is an argument. `_audioBuffer.reserve(BUFFER_SIZE)` gives the empty buffer capacity
`BUFFER_SIZE`. -/
def new (cfg : Config) (lowpassCoeffs : List ℚ) : VoiceMessage :=
  Initialize
    { timerStarted := false
      sampleCount := 0
      sampleIndex := 0
      isRecordingMode := false
      isBusy := false
      audioBuffer := []
      audioCapacity := cfg.BUFFER_SIZE
      lowpassFilter := (FirFilter.new lowpassCoeffs).Reset
      pwmSliceNum := 0
      pwmEnabled := false
      pwmLevel := 0
      led := false
      mpx := false }

/-- The method `VoiceMessage::StartTimer()`; `armOk` is the value returned by
`add_repeating_timer_us`. -/
def StartTimer (s : VoiceMessage) (armOk : Bool) : Bool × VoiceMessage :=
  if s.timerStarted then (true, s)
  else (armOk, { s with timerStarted := armOk })

/-- The method `VoiceMessage::StopTimer()`. -/
def StopTimer (s : VoiceMessage) : VoiceMessage :=
  if s.timerStarted then { s with timerStarted := false } else s

/-- The method `VoiceMessage::StartProcessing()`. -/
def StartProcessing (s : VoiceMessage) (armOk : Bool) : Bool × VoiceMessage :=
  -- gpio_put(MPX_GPIO_NUM, _isRecordingMode); sleep_ms(1);
  let s1 := { s with mpx := s.isRecordingMode }
  let r := s1.StartTimer armOk
  if !r.1 then (false, r.2)
  else (true, { r.2 with isBusy := true, led := true })

/-- The method `VoiceMessage::StartRecording()`. -/
def StartRecording (s : VoiceMessage) (armOk : Bool) : Bool × VoiceMessage :=
  if s.isBusy then (false, s)
  else StartProcessing { s with isRecordingMode := true, audioBuffer := [] } armOk

/-- The method `VoiceMessage::StartPlayback()`. -/
def StartPlayback (s : VoiceMessage) (armOk : Bool) : Bool × VoiceMessage :=
  if s.isBusy then (false, s)
  else if s.audioBuffer.isEmpty then (false, s)
  else StartProcessing { s with isRecordingMode := false, sampleIndex := 0, pwmEnabled := true } armOk

/-- The method `VoiceMessage::Stop()`. -/
def Stop (s : VoiceMessage) : VoiceMessage :=
  { s.StopTimer with
    isBusy := false
    sampleCount := 0
    lowpassFilter := s.lowpassFilter.Reset
    pwmEnabled := false
    led := false }

/-- The recording branch of `VoiceMessage::OnTimer()`, up to the common increment. -/
def recordTick (cfg : Config) (s : VoiceMessage) (adcValue : Nat) : VoiceMessage :=
  -- float filteredValue = _lowpassFilter.Process(adcValue - 2048.0f);
  let r := s.lowpassFilter.Process ((adcValue : ℚ) - 2048)
  let s1 := { s with lowpassFilter := r.2 }
  if s1.sampleCount % cfg.DECIM_RATE = 0 then
    let scaledValue := Saturate (castInt16 (r.1 / 16)) (-128) 127
    let s2 := s1.pushBack (castInt8 scaledValue)
    if s2.audioBuffer.length ≥ s2.audioCapacity then s2.Stop else s2
  else s1

/-- The sample a playback tick feeds to the filter: `_audioBuffer[_sampleIndex]` when
`_sampleCount % INTERP_RATE == 0`, otherwise 0. -/
def playbackData (cfg : Config) (s : VoiceMessage) : Int :=
  if s.sampleCount % cfg.INTERP_RATE = 0 then s.audioBuffer.getD s.sampleIndex 0 else 0

/-- Rounding to the nearest integer, ties to the even one. -/
def roundHalfEven (x : ℚ) : Int :=
  if x - ⌊x⌋ < 1 / 2 then ⌊x⌋
  else if 1 / 2 < x - ⌊x⌋ then ⌊x⌋ + 1
  else if ⌊x⌋ % 2 = 0 then ⌊x⌋ else ⌊x⌋ + 1

/-- The binary32 (`float`) value nearest to `q`, ties to even: with `2 ^ e ≤ |q| < 2 ^ (e + 1)`
the binary32 values around `q` are the multiples of `2 ^ (e - 23)`, and of `2 ^ (-149)` below
`2 ^ (-126)`. Overflow to infinity (beyond about `3.4e38`) is not modelled. -/
def roundF32 (q : ℚ) : ℚ :=
  let e : Int := max (Int.log 2 |q|) (-126)
  (roundHalfEven (q / (2 : ℚ) ^ (e - 23)) : ℚ) * (2 : ℚ) ^ (e - 23)

/-- The value a playback tick maps to the range of the output driver, before the conversion to
`int16_t`: `(filteredValue + 128.0f) * 4.0f` with
`filteredValue = _lowpassFilter.Process(data) * INTERP_RATE`, each of the three operations and
the conversion of `INTERP_RATE` to `float` rounded to binary32 as the code does. -/
def playbackMapped (cfg : Config) (s : VoiceMessage) : ℚ :=
  -- float filteredValue = _lowpassFilter.Process(data) * INTERP_RATE;
  let filteredValue :=
    roundF32 ((s.lowpassFilter.Process (playbackData cfg s : ℚ)).1
      * roundF32 (cfg.INTERP_RATE : ℚ))
  -- (filteredValue + 128.0f) * 4.0f
  roundF32 (roundF32 (filteredValue + 128) * 4)

/-- The value a playback tick passes to `pwm_set_gpio_level`. -/
def playbackLevel (cfg : Config) (s : VoiceMessage) : Nat :=
  -- int16_t pwmValue = Saturate(static_cast<int16_t>(...), 0, PWM_WRAP_VALUE);
  let pwmValue := Saturate (castInt16 (playbackMapped cfg s)) 0 cfg.PWM_WRAP_VALUE
  -- pwm_set_gpio_level(PWM_GPIO_NUM, static_cast<uint16_t>(pwmValue));
  castUInt16 pwmValue

/-- The playback branch of `VoiceMessage::OnTimer()`, up to the common increment. -/
def playbackTick (cfg : Config) (s : VoiceMessage) : VoiceMessage :=
  let s1 :=
    { s with
      -- _sampleIndex++ when a buffer sample is taken
      sampleIndex := if s.sampleCount % cfg.INTERP_RATE = 0 then s.sampleIndex + 1 else s.sampleIndex
      lowpassFilter := (s.lowpassFilter.Process (playbackData cfg s : ℚ)).2
      pwmLevel := playbackLevel cfg s }
  if s1.sampleIndex ≥ s1.audioBuffer.length then s1.Stop else s1

/-- The method `VoiceMessage::OnTimer()`; `adcValue` is the value `adc_read()` returns on this
tick. `_sampleCount` is a `uint32_t`. -/
def OnTimer (cfg : Config) (s : VoiceMessage) (adcValue : Nat) : VoiceMessage :=
  if !s.isBusy then s
  else
    let s1 := if s.isRecordingMode then recordTick cfg s adcValue else playbackTick cfg s
    -- _sampleCount++;
    { s1 with sampleCount := (s1.sampleCount + 1) % 2 ^ 32 }

/-- The requests the pipeline receives: the three public operations, with the outcome of arming
the timer, and one firing of the timer callback, with the ADC reading. -/
inductive Action where
  | startRecording (armOk : Bool)
  | startPlayback (armOk : Bool)
  | stop
  | tick (adcValue : Nat)
deriving DecidableEq, Repr

/-- One request applied to the pipeline. -/
def step (cfg : Config) (s : VoiceMessage) : Action → VoiceMessage
  | .startRecording armOk => (s.StartRecording armOk).2
  | .startPlayback armOk => (s.StartPlayback armOk).2
  | .stop => s.Stop
  | .tick adcValue => OnTimer cfg s adcValue

/-- A sequence of requests applied in order. -/
def run (cfg : Config) (s : VoiceMessage) : List Action → VoiceMessage
  | [] => s
  | a :: acts => run cfg (step cfg s a) acts

/-- The states reachable from construction by a sequence of requests. -/
def Reachable (cfg : Config) (lowpassCoeffs : List ℚ) (s : VoiceMessage) : Prop :=
  ∃ acts : List Action, run cfg (new cfg lowpassCoeffs) acts = s

/-- The buffer invariant: the vector has never been reallocated, holds at most its capacity, and
has room for one more sample while the machine is Recording. -/
def BufferInv (cfg : Config) (s : VoiceMessage) : Prop :=
  s.audioCapacity = cfg.BUFFER_SIZE
  ∧ s.audioBuffer.length ≤ s.audioCapacity
  ∧ (s.isBusy = true → s.isRecordingMode = true → s.audioBuffer.length < s.audioCapacity)

instance (cfg : Config) (s : VoiceMessage) : Decidable (BufferInv cfg s) := by
  unfold BufferInv; infer_instance

/-- The playback invariant: while the machine is Playing the read index is inside the buffer. -/
def PlaybackInv (s : VoiceMessage) : Prop :=
  s.isBusy = true → s.isRecordingMode = false → s.sampleIndex < s.audioBuffer.length

instance (s : VoiceMessage) : Decidable (PlaybackInv s) := by
  unfold PlaybackInv; infer_instance

/-- The idle invariant: while the machine is not busy the timer is not armed, the filter is in
its reset state and the LED is off. -/
def IdleInv (s : VoiceMessage) : Prop :=
  s.isBusy = false →
    s.timerStarted = false ∧ s.lowpassFilter.Reset = s.lowpassFilter ∧ s.led = false

instance (s : VoiceMessage) : Decidable (IdleInv s) := by
  unfold IdleInv; infer_instance

/-- Truncation toward zero, written from its meaning: the floor of a non-negative value, the
ceiling of a negative one. -/
def truncate (q : ℚ) : Int := if 0 ≤ q then ⌊q⌋ else ⌈q⌉

/-- The sample a recording tick appends when it stores one: the filter output for
`adcValue - 2048`, divided by 16, converted to `int16_t`, saturated to `[-128, 127]` and
converted to `int8_t`. -/
def recordSample (s : VoiceMessage) (adcValue : Nat) : Int :=
  castInt8 (Saturate (castInt16 ((s.lowpassFilter.Process ((adcValue : ℚ) - 2048)).1 / 16))
    (-128) 127)

/-- The mapped value of a playback tick in exact arithmetic, written from the formula
`(interpolationFactor * y + 128) * 4` with `y` the filter output for the tick's input. -/
def playbackMappedExact (cfg : Config) (s : VoiceMessage) : ℚ :=
  ((cfg.INTERP_RATE : ℚ) * (s.lowpassFilter.Process (playbackData cfg s : ℚ)).1 + 128) * 4

/-- The ceiling of `k / D`, as `(k + D - 1) / D`. -/
def ceilDiv (k D : Nat) : Nat := (k + D - 1) / D

/-- The machine is Recording, `k` ticks into a session that started at phase 0: the counter is
`k`, the buffer has not been reallocated and holds one sample for each tick whose counter was a
multiple of `DECIM_RATE`. -/
def RecordingAt (cfg : Config) (s : VoiceMessage) (k : Nat) : Prop :=
  s.isBusy = true ∧ s.isRecordingMode = true ∧ s.sampleCount = k
  ∧ s.audioCapacity = cfg.BUFFER_SIZE
  ∧ s.audioBuffer.length = ceilDiv k cfg.DECIM_RATE

instance (cfg : Config) (s : VoiceMessage) (k : Nat) : Decidable (RecordingAt cfg s k) := by
  unfold RecordingAt; infer_instance

/-- The machine is Playing the buffer `buf`, `k` ticks into a session that started at phase 0:
the counter is `k` and the read index counts the ticks whose counter was a multiple of
`INTERP_RATE`. -/
def PlayingAt (cfg : Config) (s : VoiceMessage) (buf : List Int) (k : Nat) : Prop :=
  s.isBusy = true ∧ s.isRecordingMode = false ∧ s.sampleCount = k
  ∧ s.audioBuffer = buf
  ∧ s.sampleIndex = ceilDiv k cfg.INTERP_RATE

instance (cfg : Config) (s : VoiceMessage) (buf : List Int) (k : Nat) :
    Decidable (PlayingAt cfg s buf k) := by
  unfold PlayingAt; infer_instance

/-- The request is a `StartRecording`. -/
def Action.isStartRecording : Action → Bool
  | .startRecording _ => true
  | _ => false

end VoiceMessage

/-! ## Theorems: FirFilter -/

namespace FirFilter

variable {α : Type}

theorem processLoop_eq_sum [Semiring α] (coeffs buffer : List α) (bufferIndex : Nat) :
    ∀ (remaining i : Nat) (output : α),
      processLoop coeffs buffer bufferIndex remaining i output =
        output + ∑ k in Finset.range remaining,
          coeffs.getD (i + k) 0 * buffer.getD ((bufferIndex + (i + k)) % buffer.length) 0 := by
  intro remaining
  induction remaining with
  | zero => intro i output; simp [processLoop]
  | succ n ih =>
    intro i output
    rw [processLoop, ih, Finset.sum_range_succ', add_assoc]
    congr 1
    rw [add_comm]
    congr 1
    apply Finset.sum_congr rfl
    intro k _
    have h : i + 1 + k = i + (k + 1) := by omega
    rw [h]

/-- C1. For a filter with `N ≥ 1` coefficients, a history of the same length and
`writeIndex < N`, `Process x` stores `x` in `history[writeIndex]`, returns
`Σ_{i < N} coefficients[i] * history'[(writeIndex + i) mod N]` over the updated history,
sets `writeIndex` to `(writeIndex + 1) mod N`, and changes no other history slot, not the
history length and no coefficient. -/
theorem Process_contract [Semiring α] (f : FirFilter α) (x : α)
    (hN : 1 ≤ f.coeffs.length) (hlen : f.buffer.length = f.coeffs.length)
    (hidx : f.bufferIndex < f.coeffs.length) :
    (f.Process x).2.buffer[f.bufferIndex]? = some x
    ∧ (f.Process x).1 = ∑ i in Finset.range f.coeffs.length,
        f.coeffs.getD i 0 *
          (f.Process x).2.buffer.getD ((f.bufferIndex + i) % f.coeffs.length) 0
    ∧ (f.Process x).2.bufferIndex = (f.bufferIndex + 1) % f.coeffs.length
    ∧ (∀ j, j ≠ f.bufferIndex → (f.Process x).2.buffer[j]? = f.buffer[j]?)
    ∧ (f.Process x).2.buffer.length = f.coeffs.length
    ∧ (f.Process x).2.coeffs = f.coeffs := by
  have _ := hN
  refine ⟨?_, ?_, ?_, ?_, ?_, ?_⟩
  · simp [Process, List.getElem?_set, hlen, hidx]
  · simp [Process, processLoop_eq_sum, hlen]
  · simp [Process, hlen]
  · intro j hj
    simp [Process, List.getElem?_set, Ne.symm hj]
  · simp [Process, hlen]
  · simp [Process]

/-- Witness for C1: a three-tap integer filter in mid-cycle. -/
theorem Process_contract_witness :
    (FirFilter.Process (⟨[1, 2, 3], [10, 20, 30], 1⟩ : FirFilter ℤ) 7).1 = 97
    ∧ (FirFilter.Process (⟨[1, 2, 3], [10, 20, 30], 1⟩ : FirFilter ℤ) 7).2
        = ⟨[1, 2, 3], [10, 7, 30], 2⟩
    ∧ (FirFilter.Process (⟨[1, 2, 3], [10, 20, 30], 1⟩ : FirFilter ℤ) 7).2.buffer[1]? = some 7 :=
  ⟨by decide, by decide,
    (Process_contract (⟨[1, 2, 3], [10, 20, 30], 1⟩ : FirFilter ℤ) 7
      (by decide) (by decide) (by decide)).1⟩

end FirFilter

namespace FirFilter

variable {α : Type}

/-- C2 (evaluation at the failing input). With taps `[1, 2, 3]` a fresh filter answers the unit
impulse `1, 0, 0, 0` with `1, 3, 2, 0`, while the direct convolution `Σ c[k] * x[n - k]` is
`1, 2, 3, 0`: taps 1 and 2 are applied in the opposite order. -/
theorem Process_impulse_not_directConvolution :
    (processAll (FirFilter.new ([1, 2, 3] : List ℚ)) [1, 0, 0, 0]).1 = [1, 3, 2, 0]
    ∧ (List.range 4).map (directConvolution ([1, 2, 3] : List ℚ) [1, 0, 0, 0]) = [1, 2, 3, 0]
    ∧ (processAll (FirFilter.new ([1, 2, 3] : List ℚ)) [1, 0, 0, 0]).1.getD 1 0
        ≠ directConvolution ([1, 2, 3] : List ℚ) [1, 0, 0, 0] 1 := by
  refine ⟨?_, ?_, ?_⟩
  · simp [processAll, FirFilter.new, Process, processLoop]
  · simp [directConvolution, List.range, List.range.loop]
  · simp [processAll, FirFilter.new, Process, processLoop, directConvolution, List.range,
      List.range.loop]

theorem set_replicate_zero [Zero α] (n i : Nat) :
    (List.replicate n (0 : α)).set i 0 = List.replicate n 0 := by
  apply List.ext_getElem?
  intro j
  simp [List.getElem?_set, List.getElem?_replicate]

theorem getD_replicate_zero [Zero α] (n i : Nat) :
    (List.replicate n (0 : α)).getD i 0 = 0 := by
  simp [List.getD_eq_getElem?_getD, List.getElem?_replicate]
  split <;> rfl

/-- On an all-zero history, `Process 0` returns 0 and leaves the history all zero. -/
theorem Process_zero_of_zero [Semiring α] (c : List α) (n i : Nat) :
    Process (⟨c, List.replicate n 0, i⟩ : FirFilter α) 0
      = (0, ⟨c, List.replicate n 0, (i + 1) % n⟩) := by
  simp [Process, set_replicate_zero, processLoop_eq_sum, getD_replicate_zero]

theorem processAll_zero_of_zero [Semiring α] (c : List α) (n : Nat) :
    ∀ (m i : Nat),
      (processAll (⟨c, List.replicate n 0, i⟩ : FirFilter α) (List.replicate m 0)).1
        = List.replicate m 0 := by
  intro m
  induction m with
  | zero => intro i; simp [processAll]
  | succ m ih =>
    intro i
    simp only [List.replicate_succ, processAll, Process_zero_of_zero]
    rw [ih]

/-- C10. For a filter with `N ≥ 1` coefficients and any prior history and `writeIndex`, after
`Reset` every history slot is 0 (and the history still has `N` slots), `writeIndex` is 0, the
coefficients are unchanged, and the next `N` calls `Process 0` each return 0. -/
theorem Reset_contract [Semiring α] (f : FirFilter α)
    (hN : 1 ≤ f.coeffs.length) (hlen : f.buffer.length = f.coeffs.length) :
    (∀ j, j < f.coeffs.length → f.Reset.buffer[j]? = some 0)
    ∧ f.Reset.buffer.length = f.coeffs.length
    ∧ f.Reset.bufferIndex = 0
    ∧ f.Reset.coeffs = f.coeffs
    ∧ (processAll f.Reset (List.replicate f.coeffs.length 0)).1
        = List.replicate f.coeffs.length 0 := by
  have _ := hN
  refine ⟨?_, ?_, rfl, rfl, ?_⟩
  · intro j hj
    simp [Reset, List.getElem?_replicate, hlen, hj]
  · simp [Reset, hlen]
  · exact processAll_zero_of_zero f.coeffs f.buffer.length f.coeffs.length 0

/-- Witness for C10: a three-tap integer filter with a dirty history. -/
theorem Reset_contract_witness :
    (FirFilter.Reset (⟨[1, 2, 3], [10, 20, 30], 2⟩ : FirFilter ℤ)) = ⟨[1, 2, 3], [0, 0, 0], 0⟩
    ∧ (processAll (FirFilter.Reset (⟨[1, 2, 3], [10, 20, 30], 2⟩ : FirFilter ℤ))
        (List.replicate 3 0)).1 = List.replicate 3 0 :=
  ⟨by decide,
    (Reset_contract (⟨[1, 2, 3], [10, 20, 30], 2⟩ : FirFilter ℤ)
      (by decide) (by decide)).2.2.2.2⟩

/-! ### What the filter computes -/

theorem mod_slot_ne (m N j : Nat) (h1 : 1 ≤ j) (h2 : j < N) :
    (m + N - j) % N ≠ m % N := by
  intro h
  have e1 : (m + N - j + j) % N = (m + j) % N := Nat.ModEq.add_right j h
  have e2 : m + N - j + j = m + N := by omega
  rw [e2, Nat.add_mod_right] at e1
  have e3 : (m + 0) % N = (m + j) % N := by simpa using e1
  have e4 : 0 % N = j % N := Nat.ModEq.add_left_cancel' m e3
  rw [Nat.zero_mod, Nat.mod_eq_of_lt h2] at e4
  omega

theorem historyOf_new [Zero α] (c : List α) : HistoryOf (FirFilter.new c) c [] := by
  refine ⟨rfl, by simp [FirFilter.new], by simp [FirFilter.new], ?_⟩
  intro j _
  simp [FirFilter.new, getD_replicate_zero]

theorem historyOf_Reset [Zero α] (f : FirFilter α) (hlen : f.buffer.length = f.coeffs.length) :
    HistoryOf f.Reset f.coeffs [] := by
  refine ⟨rfl, by simp [Reset, hlen], by simp [Reset], ?_⟩
  intro j _
  simp [Reset, getD_replicate_zero]

/-- One `Process` call keeps the history invariant, and its output is the sum of `c[i]` times
the sample fed `(N - i) mod N` calls before the current one. -/
theorem historyOf_Process [Semiring α] (f : FirFilter α) (c past : List α) (x : α)
    (hN : 1 ≤ c.length) (h : HistoryOf f c past) :
    HistoryOf (f.Process x).2 c (x :: past)
    ∧ (f.Process x).1 = ∑ i in Finset.range c.length,
        c.getD i 0 * (x :: past).getD ((c.length - i) % c.length) 0 := by
  obtain ⟨hc, hlen, hidx, hist⟩ := h
  have hpos : 0 < c.length := hN
  have hslot : ∀ j, j < c.length →
      (f.buffer.set (past.length % c.length) x).getD
          ((past.length + 1 + c.length - (j + 1)) % c.length) 0
        = (x :: past).getD j 0 := by
    intro j hj
    rw [List.getD_eq_getElem?_getD, List.getElem?_set]
    cases j with
    | zero =>
      have e : past.length + 1 + c.length - (0 + 1) = past.length + c.length := by omega
      rw [e, Nat.add_mod_right, if_pos rfl, hlen, if_pos (Nat.mod_lt _ hpos)]
      simp
    | succ j =>
      have e : past.length + 1 + c.length - (j + 1 + 1)
          = past.length + c.length - (j + 1) := by omega
      rw [e, if_neg (Ne.symm (mod_slot_ne _ _ (j + 1) (by omega) hj))]
      rw [← List.getD_eq_getElem?_getD, hist j (by omega), List.getD_cons_succ]
  refine ⟨⟨by simp [Process, hc], by simp [Process, hlen], ?_, ?_⟩, ?_⟩
  · simp only [Process, List.length_set, hlen, hidx, List.length_cons]
    rw [Nat.mod_add_mod]
  · intro j hj
    simpa [Process, hidx] using hslot j hj
  · simp only [Process, processLoop_eq_sum, zero_add, List.length_set, hlen, hc, hidx]
    apply Finset.sum_congr rfl
    intro i hi
    have hi2 : i < c.length := Finset.mem_range.1 hi
    congr 1
    rw [Nat.mod_add_mod]
    by_cases h0 : i = 0
    · subst h0
      have h1 := hslot 0 hpos
      have e : past.length + 1 + c.length - (0 + 1) = past.length + c.length := by omega
      rw [e, Nat.add_mod_right] at h1
      simpa using h1
    · have h1 := hslot (c.length - i) (by omega)
      have e : past.length + 1 + c.length - (c.length - i + 1) = past.length + i := by omega
      rw [e] at h1
      rw [h1, Nat.mod_eq_of_lt (by omega : c.length - i < c.length)]

/-- Feeding `xs` to a filter whose history is `past` leaves the history of `xs` followed by
`past`; the `n`-th output is the sum of `c[i]` times the sample fed `(N - i) mod N` calls before
the `n`-th one. -/
theorem processAll_history [Semiring α] (c : List α) (hN : 1 ≤ c.length) :
    ∀ (xs : List α) (f : FirFilter α) (past : List α), HistoryOf f c past →
      HistoryOf (processAll f xs).2 c (xs.reverse ++ past)
      ∧ ∀ n, n < xs.length →
          (processAll f xs).1.getD n 0 = ∑ i in Finset.range c.length,
            c.getD i 0 *
              ((xs.take (n + 1)).reverse ++ past).getD ((c.length - i) % c.length) 0 := by
  intro xs
  induction xs with
  | nil => intro f past h; exact ⟨by simpa [processAll] using h, by intro n hn; simp at hn⟩
  | cons x xs ih =>
    intro f past h
    obtain ⟨h1, h2⟩ := historyOf_Process f c past x hN h
    obtain ⟨h3, h4⟩ := ih (f.Process x).2 (x :: past) h1
    constructor
    · simpa [processAll] using h3
    · intro n hn
      cases n with
      | zero => simpa [processAll] using h2
      | succ n =>
        have h5 := h4 n (by simpa using hn)
        simpa [processAll] using h5

theorem getD_reverse_take [Zero α] (x : List α) (n j : Nat) (hn : n < x.length) :
    ((x.take (n + 1)).reverse).getD j 0 = if j ≤ n then x.getD (n - j) 0 else 0 := by
  have hlen : (x.take (n + 1)).length = n + 1 := by
    rw [List.length_take]; omega
  by_cases hj : j ≤ n
  · rw [if_pos hj, List.getD_eq_getElem?_getD, List.getD_eq_getElem?_getD,
      List.getElem?_reverse (by omega), hlen, List.getElem?_take]
    have e : n + 1 - 1 - j = n - j := by omega
    rw [e, if_pos (by omega)]
  · rw [if_neg hj, List.getD_eq_getElem?_getD, List.getElem?_eq_none (by simp; omega)]
    rfl

/-- On a fresh filter with `N ≥ 1` taps the `n`-th output is
`Σ_{i < N} c[i] * x[n - (N - i) mod N]` (terms with a negative sample index are 0): tap 0 meets
`x[n]`, tap `i ≥ 1` meets `x[n - (N - i)]`. -/
theorem processAll_new_output [Semiring α] (c x : List α) (hN : 1 ≤ c.length)
    (n : Nat) (hn : n < x.length) :
    (processAll (FirFilter.new c) x).1.getD n 0
      = ∑ i in Finset.range c.length,
          c.getD i 0 *
            (if (c.length - i) % c.length ≤ n then x.getD (n - (c.length - i) % c.length) 0
             else 0) := by
  have h := (processAll_history c hN x (FirFilter.new c) [] (historyOf_new c)).2 n hn
  rw [h]
  apply Finset.sum_congr rfl
  intro i _
  rw [List.append_nil, getD_reverse_take x n _ hn]

end FirFilter

/-! ## Theorems: VoiceMessage, start requests -/

namespace VoiceMessage

/-- C3. In every state in which the machine is busy, `StartRecording` and `StartPlayback` return
false and leave the whole state unchanged, whatever the timer would have answered. -/
theorem start_rejected_when_busy (s : VoiceMessage) (armOk : Bool) (hbusy : s.isBusy = true) :
    s.StartRecording armOk = (false, s) ∧ s.StartPlayback armOk = (false, s) := by
  simp [StartRecording, StartPlayback, hbusy]

/-- Witness for C3: the Recording state reached by one successful `StartRecording`. -/
theorem start_rejected_when_busy_witness :
    (run Config.source (new Config.source [1]) [.startRecording true]).isBusy = true
    ∧ (run Config.source (new Config.source [1]) [.startRecording true]).StartRecording true
        = (false, run Config.source (new Config.source [1]) [.startRecording true])
    ∧ (run Config.source (new Config.source [1]) [.startRecording true]).StartPlayback true
        = (false, run Config.source (new Config.source [1]) [.startRecording true]) :=
  ⟨by decide,
    (start_rejected_when_busy _ true (by decide)).1,
    (start_rejected_when_busy _ true (by decide)).2⟩

/-- C4. On an Idle state with an empty sample buffer `StartPlayback` returns false whatever the
timer would answer and changes nothing (the machine stays Idle, the timer is not armed, the
output driver is not enabled, buffer, counters and filter are as before); and on any state,
`StartPlayback` returns true only if the machine was not busy, the buffer was non-empty and the
timer is armed afterwards, armed by this call unless it was armed already. -/
theorem StartPlayback_empty_rejected (s : VoiceMessage) (armOk : Bool) :
    (s.isBusy = false → s.audioBuffer = [] →
      s.StartPlayback armOk = (false, s)
      ∧ (s.StartPlayback armOk).2.isBusy = false
      ∧ (s.StartPlayback armOk).2.timerStarted = s.timerStarted
      ∧ (s.StartPlayback armOk).2.pwmEnabled = s.pwmEnabled)
    ∧ ((s.StartPlayback armOk).1 = true →
      s.isBusy = false ∧ s.audioBuffer ≠ []
      ∧ (s.StartPlayback armOk).2.timerStarted = true
      ∧ (s.StartPlayback armOk).2.isBusy = true
      ∧ (s.timerStarted = false → armOk = true)) := by
  constructor
  · intro hidle hempty
    simp [StartPlayback, hidle, hempty]
  · intro h
    unfold StartPlayback at h ⊢
    by_cases hb : s.isBusy = true
    · simp [hb] at h
    · by_cases he : s.audioBuffer.isEmpty = true
      · simp [hb, he] at h
      · have hne : s.audioBuffer ≠ [] := by
          intro hnil; simp [hnil] at he
        simp only [hb, he, Bool.false_eq_true, if_false] at h ⊢
        by_cases ht : s.timerStarted = true
        · simp [StartProcessing, StartTimer, ht, hne]
        · cases armOk <;> simp [StartProcessing, StartTimer, ht, hne] at h ⊢

/-- Witness for C4: the freshly constructed machine (Idle, empty buffer), and a machine that
holds a one-sample message and starts playing it. -/
theorem StartPlayback_empty_rejected_witness :
    (new Config.source [1]).StartPlayback true = (false, new Config.source [1])
    ∧ (run Config.source (new Config.source [1])
        [.startRecording true, .tick 2048, .stop]).audioBuffer ≠ [] :=
  ⟨((StartPlayback_empty_rejected (new Config.source [1]) true).1 (by decide) (by decide)).1,
    ((StartPlayback_empty_rejected
      (run Config.source (new Config.source [1]) [.startRecording true, .tick 2048, .stop])
      true).2 (by decide)).2.1⟩

/-- C5 (counterexample). The machine holds a one-sample message and is Idle. A `StartRecording`
whose timer cannot be armed returns false and leaves the machine Idle, but the message is gone
and the mode flag has changed; a `StartPlayback` whose timer cannot be armed returns false and
leaves the machine Idle, but the output driver is now enabled. -/
theorem start_arm_failure_changes_state :
    (run Config.source (new Config.source [1])
      [.startRecording true, .tick 2048, .stop]).isBusy = false
    ∧ (run Config.source (new Config.source [1])
      [.startRecording true, .tick 2048, .stop]).timerStarted = false
    ∧ ((run Config.source (new Config.source [1])
      [.startRecording true, .tick 2048, .stop]).StartRecording false).1 = false
    ∧ ((run Config.source (new Config.source [1])
      [.startRecording true, .tick 2048, .stop]).StartRecording false).2.audioBuffer
        ≠ (run Config.source (new Config.source [1])
            [.startRecording true, .tick 2048, .stop]).audioBuffer
    ∧ ((run Config.source (new Config.source [1])
      [.startRecording true, .tick 2048, .stop]).StartPlayback false).1 = false
    ∧ ((run Config.source (new Config.source [1])
      [.startRecording true, .tick 2048, .stop]).StartPlayback false).2.pwmEnabled
        ≠ (run Config.source (new Config.source [1])
            [.startRecording true, .tick 2048, .stop]).pwmEnabled := by
  refine ⟨by decide, by decide, by decide, by decide, by decide, by decide⟩

/-- C5 (amended). On an Idle state with the timer not armed, when arming the timer fails:
`StartRecording` returns false and the state afterwards is the state before with the buffer
emptied, the mode flag set to recording and the multiplexer line set accordingly;
`StartPlayback` on a non-empty buffer returns false and the state afterwards is the state
before with `playbackIndex` 0, the mode flag set to playback, the output driver enabled and the
multiplexer line set accordingly. In both cases the machine remains Idle, the timer is not
armed, and `sampleCounter` and the filter are unchanged. -/
theorem start_arm_failure (s : VoiceMessage)
    (hidle : s.isBusy = false) (htimer : s.timerStarted = false) :
    s.StartRecording false
        = (false, { s with isRecordingMode := true, audioBuffer := [], mpx := true })
    ∧ (s.audioBuffer ≠ [] →
        s.StartPlayback false
          = (false, { s with isRecordingMode := false, sampleIndex := 0, pwmEnabled := true,
                             mpx := false }))
    ∧ (s.StartRecording false).2.isBusy = false
    ∧ (s.StartRecording false).2.timerStarted = false
    ∧ (s.StartRecording false).2.sampleCount = s.sampleCount
    ∧ (s.StartRecording false).2.sampleIndex = s.sampleIndex
    ∧ (s.StartRecording false).2.lowpassFilter = s.lowpassFilter
    ∧ (s.StartRecording false).2.pwmEnabled = s.pwmEnabled
    ∧ (s.StartPlayback false).1 = false
    ∧ (s.StartPlayback false).2.isBusy = false
    ∧ (s.StartPlayback false).2.timerStarted = false
    ∧ (s.StartPlayback false).2.sampleCount = s.sampleCount
    ∧ (s.StartPlayback false).2.lowpassFilter = s.lowpassFilter
    ∧ (s.StartPlayback false).2.audioBuffer = s.audioBuffer := by
  have hrec : s.StartRecording false
      = (false, { s with isRecordingMode := true, audioBuffer := [], mpx := true }) := by
    simp [StartRecording, StartProcessing, StartTimer, hidle, htimer]
  have hplay : s.audioBuffer ≠ [] → s.StartPlayback false
      = (false, { s with isRecordingMode := false, sampleIndex := 0, pwmEnabled := true,
                         mpx := false }) := by
    intro hne
    simp [StartPlayback, StartProcessing, StartTimer, hidle, htimer, hne]
  refine ⟨hrec, hplay, ?_, ?_, ?_, ?_, ?_, ?_, ?_, ?_, ?_, ?_, ?_, ?_⟩
  · rw [hrec]; exact hidle
  · rw [hrec]; exact htimer
  · rw [hrec]
  · rw [hrec]
  · rw [hrec]
  · rw [hrec]
  all_goals
    by_cases hne : s.audioBuffer = []
    · simp [StartPlayback, hidle, hne, htimer]
    · simp [hplay hne, hidle, htimer]

/-- Witness for C5 (amended): the Idle machine holding a one-sample message. -/
theorem start_arm_failure_witness :
    ((run Config.source (new Config.source [1])
      [.startRecording true, .tick 2048, .stop]).StartRecording false).2.audioBuffer = []
    ∧ ((run Config.source (new Config.source [1])
      [.startRecording true, .tick 2048, .stop]).StartPlayback false).2.pwmEnabled = true :=
  ⟨congrArg (fun r => r.2.audioBuffer)
      (start_arm_failure
        (run Config.source (new Config.source [1]) [.startRecording true, .tick 2048, .stop])
        (by decide) (by decide)).1,
    congrArg (fun r => r.2.pwmEnabled)
      ((start_arm_failure
        (run Config.source (new Config.source [1]) [.startRecording true, .tick 2048, .stop])
        (by decide) (by decide)).2.1 (by decide))⟩

end VoiceMessage

/-! ## Theorems: VoiceMessage, field-level facts about `Stop` and the tick handler -/

namespace VoiceMessage

theorem Stop_audioBuffer (s : VoiceMessage) : s.Stop.audioBuffer = s.audioBuffer := by
  unfold Stop StopTimer; split <;> rfl

theorem Stop_audioCapacity (s : VoiceMessage) :
    s.Stop.audioCapacity = s.audioCapacity := by
  unfold Stop StopTimer; split <;> rfl

theorem Stop_isBusy (s : VoiceMessage) : s.Stop.isBusy = false := rfl

theorem Stop_isRecordingMode (s : VoiceMessage) :
    s.Stop.isRecordingMode = s.isRecordingMode := by
  unfold Stop StopTimer; split <;> rfl

theorem Stop_sampleIndex (s : VoiceMessage) : s.Stop.sampleIndex = s.sampleIndex := by
  unfold Stop StopTimer; split <;> rfl

theorem Stop_pwmLevel (s : VoiceMessage) : s.Stop.pwmLevel = s.pwmLevel := by
  unfold Stop StopTimer; split <;> rfl

theorem Stop_sampleCount (s : VoiceMessage) : s.Stop.sampleCount = 0 := rfl

/-- What a recording tick does when the buffer is not full: either nothing is stored, or one
sample is appended without reallocation and the machine goes Idle exactly when the buffer is
then full. -/
theorem recordTick_cases (cfg : Config) (s : VoiceMessage) (adcValue : Nat)
    (hlt : s.audioBuffer.length < s.audioCapacity) :
    (recordTick cfg s adcValue).audioCapacity = s.audioCapacity
    ∧ ((s.sampleCount % cfg.DECIM_RATE ≠ 0
          ∧ (recordTick cfg s adcValue).audioBuffer = s.audioBuffer
          ∧ (recordTick cfg s adcValue).isBusy = s.isBusy)
        ∨ (s.sampleCount % cfg.DECIM_RATE = 0
          ∧ (∃ v, (recordTick cfg s adcValue).audioBuffer = s.audioBuffer ++ [v])
          ∧ (s.audioBuffer.length + 1 = s.audioCapacity
              → (recordTick cfg s adcValue).isBusy = false)
          ∧ (s.audioBuffer.length + 1 < s.audioCapacity
              → (recordTick cfg s adcValue).isBusy = s.isBusy))) := by
  unfold recordTick
  by_cases hc : s.sampleCount % cfg.DECIM_RATE = 0
  · by_cases hfull : s.audioBuffer.length + 1 = s.audioCapacity
    · have hge : s.audioCapacity ≤ s.audioBuffer.length + 1 := by omega
      simp [hc, pushBack, hlt, hge, hfull, Stop_audioBuffer, Stop_audioCapacity, Stop_isBusy, Stop_isRecordingMode,
      Stop_sampleIndex, Stop_pwmLevel, Stop_sampleCount]
    · have hge : ¬ s.audioCapacity ≤ s.audioBuffer.length + 1 := by omega
      simp [hc, pushBack, hlt, hge, hfull, Stop_audioBuffer, Stop_audioCapacity, Stop_isBusy, Stop_isRecordingMode,
      Stop_sampleIndex, Stop_pwmLevel, Stop_sampleCount]
  · simp [hc]

theorem recordTick_isRecordingMode (cfg : Config) (s : VoiceMessage) (adcValue : Nat) :
    (recordTick cfg s adcValue).isRecordingMode = s.isRecordingMode := by
  simp only [recordTick]; split <;> try split
  all_goals simp [pushBack, Stop_audioBuffer, Stop_audioCapacity, Stop_isBusy, Stop_isRecordingMode,
      Stop_sampleIndex, Stop_pwmLevel, Stop_sampleCount]

theorem recordTick_sampleIndex (cfg : Config) (s : VoiceMessage) (adcValue : Nat) :
    (recordTick cfg s adcValue).sampleIndex = s.sampleIndex := by
  simp only [recordTick]; split <;> try split
  all_goals simp [pushBack, Stop_audioBuffer, Stop_audioCapacity, Stop_isBusy, Stop_isRecordingMode,
      Stop_sampleIndex, Stop_pwmLevel, Stop_sampleCount]

/-- A recording tick leaves the buffer as it is or appends one sample. -/
theorem recordTick_audioBuffer (cfg : Config) (s : VoiceMessage) (adcValue : Nat) :
    (recordTick cfg s adcValue).audioBuffer = s.audioBuffer
    ∨ ∃ v, (recordTick cfg s adcValue).audioBuffer = s.audioBuffer ++ [v] := by
  simp only [recordTick]; split <;> try split
  all_goals simp [pushBack, Stop_audioBuffer, Stop_audioCapacity, Stop_isBusy, Stop_isRecordingMode,
      Stop_sampleIndex, Stop_pwmLevel, Stop_sampleCount]

theorem playbackTick_audioBuffer (cfg : Config) (s : VoiceMessage) :
    (playbackTick cfg s).audioBuffer = s.audioBuffer := by
  simp only [playbackTick]; split <;> split <;> simp [
      Stop_audioBuffer, Stop_audioCapacity, Stop_isBusy, Stop_isRecordingMode,
      Stop_sampleIndex, Stop_pwmLevel, Stop_sampleCount]

theorem playbackTick_audioCapacity (cfg : Config) (s : VoiceMessage) :
    (playbackTick cfg s).audioCapacity = s.audioCapacity := by
  simp only [playbackTick]; split <;> split <;> simp [
      Stop_audioBuffer, Stop_audioCapacity, Stop_isBusy, Stop_isRecordingMode,
      Stop_sampleIndex, Stop_pwmLevel, Stop_sampleCount]

theorem playbackTick_isRecordingMode (cfg : Config) (s : VoiceMessage) :
    (playbackTick cfg s).isRecordingMode = s.isRecordingMode := by
  simp only [playbackTick]; split <;> split <;> simp [
      Stop_audioBuffer, Stop_audioCapacity, Stop_isBusy, Stop_isRecordingMode,
      Stop_sampleIndex, Stop_pwmLevel, Stop_sampleCount]

theorem playbackTick_pwmLevel (cfg : Config) (s : VoiceMessage) :
    (playbackTick cfg s).pwmLevel = playbackLevel cfg s := by
  simp only [playbackTick]; split <;> split <;> simp [
      Stop_audioBuffer, Stop_audioCapacity, Stop_isBusy, Stop_isRecordingMode,
      Stop_sampleIndex, Stop_pwmLevel, Stop_sampleCount]

theorem playbackTick_sampleIndex (cfg : Config) (s : VoiceMessage) :
    (playbackTick cfg s).sampleIndex
      = if s.sampleCount % cfg.INTERP_RATE = 0 then s.sampleIndex + 1 else s.sampleIndex := by
  simp only [playbackTick]; split <;> split <;> simp [
      Stop_audioBuffer, Stop_audioCapacity, Stop_isBusy, Stop_isRecordingMode,
      Stop_sampleIndex, Stop_pwmLevel, Stop_sampleCount]

theorem playbackTick_isBusy (cfg : Config) (s : VoiceMessage) :
    (playbackTick cfg s).isBusy
      = if (playbackTick cfg s).sampleIndex ≥ s.audioBuffer.length then false else s.isBusy := by
  rw [playbackTick_sampleIndex]
  simp only [playbackTick]
  split <;> split <;> simp_all [
      Stop_audioBuffer, Stop_audioCapacity, Stop_isBusy, Stop_isRecordingMode,
      Stop_sampleIndex, Stop_pwmLevel, Stop_sampleCount]

theorem OnTimer_idle (cfg : Config) (s : VoiceMessage) (adcValue : Nat)
    (h : s.isBusy = false) : OnTimer cfg s adcValue = s := by
  simp [OnTimer, h]

theorem OnTimer_recording (cfg : Config) (s : VoiceMessage) (adcValue : Nat)
    (hb : s.isBusy = true) (hr : s.isRecordingMode = true) :
    OnTimer cfg s adcValue
      = { recordTick cfg s adcValue with
          sampleCount := ((recordTick cfg s adcValue).sampleCount + 1) % 2 ^ 32 } := by
  simp [OnTimer, hb, hr]

theorem OnTimer_playing (cfg : Config) (s : VoiceMessage) (adcValue : Nat)
    (hb : s.isBusy = true) (hr : s.isRecordingMode = false) :
    OnTimer cfg s adcValue
      = { playbackTick cfg s with
          sampleCount := ((playbackTick cfg s).sampleCount + 1) % 2 ^ 32 } := by
  simp [OnTimer, hb, hr]

end VoiceMessage

/-! ## Theorems: VoiceMessage, invariants of the reachable states -/

namespace VoiceMessage

theorem bufferInv_new (cfg : Config) (coeffs : List ℚ) : BufferInv cfg (new cfg coeffs) := by
  simp [BufferInv, new, Initialize]

theorem bufferInv_StartRecording (cfg : Config) (hC : 1 ≤ cfg.BUFFER_SIZE) (s : VoiceMessage)
    (armOk : Bool) (h : BufferInv cfg s) : BufferInv cfg (s.StartRecording armOk).2 := by
  obtain ⟨h1, h2, h3⟩ := h
  unfold StartRecording
  by_cases hb : s.isBusy = true
  · simp only [hb, if_true]; exact ⟨h1, h2, h3⟩
  · simp only [hb, Bool.false_eq_true, if_false]
    by_cases ht : s.timerStarted = true <;> cases armOk <;>
      simp [BufferInv, StartProcessing, StartTimer, ht, h1, hb] <;> omega

theorem bufferInv_StartPlayback (cfg : Config) (s : VoiceMessage)
    (armOk : Bool) (h : BufferInv cfg s) : BufferInv cfg (s.StartPlayback armOk).2 := by
  obtain ⟨h1, h2, h3⟩ := h
  unfold StartPlayback
  by_cases hb : s.isBusy = true
  · simp only [hb, if_true]; exact ⟨h1, h2, h3⟩
  · simp only [hb, Bool.false_eq_true, if_false]
    by_cases he : s.audioBuffer.isEmpty = true
    · simp only [he, if_true]; exact ⟨h1, h2, h3⟩
    · simp only [he, Bool.false_eq_true, if_false]
      by_cases ht : s.timerStarted = true <;> cases armOk <;>
        simp [BufferInv, StartProcessing, StartTimer, ht, h1, hb] <;> omega

theorem bufferInv_Stop (cfg : Config) (s : VoiceMessage)
    (h1 : s.audioCapacity = cfg.BUFFER_SIZE) (h2 : s.audioBuffer.length ≤ s.audioCapacity) :
    BufferInv cfg s.Stop := by
  simp [BufferInv, Stop_audioBuffer, Stop_audioCapacity, Stop_isBusy, h1]
  omega

theorem bufferInv_OnTimer (cfg : Config) (s : VoiceMessage) (adcValue : Nat)
    (h : BufferInv cfg s) : BufferInv cfg (OnTimer cfg s adcValue) := by
  by_cases hb : s.isBusy = true
  · obtain ⟨h1, h2, h3⟩ := h
    by_cases hr : s.isRecordingMode = true
    · rw [OnTimer_recording cfg s adcValue hb hr]
      have hlt := h3 hb hr
      obtain ⟨c1, c4⟩ := recordTick_cases cfg s adcValue hlt
      simp only [BufferInv, c1]
      rcases c4 with ⟨_, e1, e2⟩ | ⟨_, ⟨v, e1⟩, e2, _⟩
      · simp [e1, h1]; omega
      · simp only [e1, List.length_append, List.length_singleton]
        refine ⟨h1, by omega, ?_⟩
        intro hb2 _
        by_cases hfull : s.audioBuffer.length + 1 = s.audioCapacity
        · rw [e2 hfull] at hb2; simp at hb2
        · omega
    · have hr2 : s.isRecordingMode = false := by simpa using hr
      rw [OnTimer_playing cfg s adcValue hb hr2]
      simp only [BufferInv, playbackTick_audioBuffer, playbackTick_audioCapacity,
        playbackTick_isRecordingMode, hr2]
      exact ⟨h1, h2, by simp⟩
  · have hb2 : s.isBusy = false := by simpa using hb
    rw [OnTimer_idle cfg s adcValue hb2]; exact h

theorem bufferInv_step (cfg : Config) (hC : 1 ≤ cfg.BUFFER_SIZE) (s : VoiceMessage)
    (a : Action) (h : BufferInv cfg s) : BufferInv cfg (step cfg s a) := by
  cases a with
  | startRecording armOk => exact bufferInv_StartRecording cfg hC s armOk h
  | startPlayback armOk => exact bufferInv_StartPlayback cfg s armOk h
  | stop => exact bufferInv_Stop cfg s h.1 h.2.1
  | tick adcValue => exact bufferInv_OnTimer cfg s adcValue h

theorem bufferInv_run (cfg : Config) (hC : 1 ≤ cfg.BUFFER_SIZE) (acts : List Action) :
    ∀ s : VoiceMessage, BufferInv cfg s → BufferInv cfg (run cfg s acts) := by
  induction acts with
  | nil => intro s h; exact h
  | cons a acts ih => intro s h; exact ih _ (bufferInv_step cfg hC s a h)

theorem bufferInv_of_reachable (cfg : Config) (hC : 1 ≤ cfg.BUFFER_SIZE) (coeffs : List ℚ)
    (s : VoiceMessage) (hs : Reachable cfg coeffs s) : BufferInv cfg s := by
  obtain ⟨acts, rfl⟩ := hs
  exact bufferInv_run cfg hC acts _ (bufferInv_new cfg coeffs)

theorem playbackInv_step (cfg : Config) (s : VoiceMessage) (a : Action)
    (h : PlaybackInv s) : PlaybackInv (step cfg s a) := by
  cases a with
  | startRecording armOk =>
    simp only [step, StartRecording]
    by_cases hb : s.isBusy = true
    · simp only [hb, if_true]; exact h
    · simp only [hb, Bool.false_eq_true, if_false]
      by_cases ht : s.timerStarted = true <;> cases armOk <;>
        simp [PlaybackInv, StartProcessing, StartTimer, ht, hb]
  | startPlayback armOk =>
    simp only [step, StartPlayback]
    by_cases hb : s.isBusy = true
    · simp only [hb, if_true]; exact h
    · simp only [hb, Bool.false_eq_true, if_false]
      by_cases he : s.audioBuffer.isEmpty = true
      · simp only [he, if_true]; exact h
      · simp only [he, Bool.false_eq_true, if_false]
        have hpos : 0 < s.audioBuffer.length := by
          cases hl : s.audioBuffer with
          | nil => simp [hl] at he
          | cons a l => simp
        by_cases ht : s.timerStarted = true <;> cases armOk <;>
          simp [PlaybackInv, StartProcessing, StartTimer, ht, hb, hpos]
  | stop => simp [step, PlaybackInv, Stop_isBusy]
  | tick adcValue =>
    simp only [step]
    by_cases hb : s.isBusy = true
    · by_cases hr : s.isRecordingMode = true
      · rw [OnTimer_recording cfg s adcValue hb hr]
        simp [PlaybackInv, recordTick_isRecordingMode, hr]
      · have hr2 : s.isRecordingMode = false := by simpa using hr
        rw [OnTimer_playing cfg s adcValue hb hr2]
        simp only [PlaybackInv, playbackTick_audioBuffer]
        intro hb2 _
        rw [playbackTick_isBusy] at hb2
        by_cases hge : (playbackTick cfg s).sampleIndex ≥ s.audioBuffer.length
        · simp [hge] at hb2
        · omega
    · have hb2 : s.isBusy = false := by simpa using hb
      rw [OnTimer_idle cfg s adcValue hb2]; exact h

theorem playbackInv_of_reachable (cfg : Config) (coeffs : List ℚ)
    (s : VoiceMessage) (hs : Reachable cfg coeffs s) : PlaybackInv s := by
  obtain ⟨acts, rfl⟩ := hs
  have key : ∀ (acts : List Action) (s : VoiceMessage),
      PlaybackInv s → PlaybackInv (run cfg s acts) := by
    intro acts
    induction acts with
    | nil => intro s h; exact h
    | cons a acts ih => intro s h; exact ih _ (playbackInv_step cfg s a h)
  apply key
  simp [PlaybackInv, new, Initialize]

/-- A request other than `StartRecording`, on a machine that is not Recording, leaves the buffer
as it is and the machine not Recording. -/
theorem step_keeps_buffer (cfg : Config) (s : VoiceMessage) (a : Action)
    (ha : a.isStartRecording = false)
    (hs : ¬ (s.isBusy = true ∧ s.isRecordingMode = true)) :
    (step cfg s a).audioBuffer = s.audioBuffer
    ∧ ¬ ((step cfg s a).isBusy = true ∧ (step cfg s a).isRecordingMode = true) := by
  cases a with
  | startRecording armOk => simp [Action.isStartRecording] at ha
  | startPlayback armOk =>
    simp only [step, StartPlayback]
    by_cases hb : s.isBusy = true
    · rw [if_pos hb]; exact ⟨rfl, hs⟩
    · rw [if_neg hb]
      by_cases he : s.audioBuffer.isEmpty = true
      · rw [if_pos he]; exact ⟨rfl, hs⟩
      · simp only [he, Bool.false_eq_true, if_false]
        by_cases ht : s.timerStarted = true <;> cases armOk <;>
          simp [StartProcessing, StartTimer, ht, hb]
  | stop => simp [step, Stop_audioBuffer, Stop_isBusy]
  | tick adcValue =>
    simp only [step]
    by_cases hb : s.isBusy = true
    · have hr2 : s.isRecordingMode = false := by
        cases hr : s.isRecordingMode with
        | false => rfl
        | true => exact absurd ⟨hb, hr⟩ hs
      rw [OnTimer_playing cfg s adcValue hb hr2]
      simp [playbackTick_audioBuffer, playbackTick_isRecordingMode, hr2]
    · have hb2 : s.isBusy = false := by simpa using hb
      rw [OnTimer_idle cfg s adcValue hb2]; exact ⟨rfl, hs⟩

theorem run_keeps_buffer (cfg : Config) (acts : List Action) :
    ∀ s : VoiceMessage, (∀ a ∈ acts, a.isStartRecording = false) →
      ¬ (s.isBusy = true ∧ s.isRecordingMode = true) →
      (run cfg s acts).audioBuffer = s.audioBuffer := by
  induction acts with
  | nil => intro s _ _; rfl
  | cons a acts ih =>
    intro s hacts hs
    have h1 := step_keeps_buffer cfg s a (hacts a (List.mem_cons_self _ _)) hs
    simp only [run]
    rw [ih (step cfg s a) (fun b hb => hacts b (List.mem_cons_of_mem _ hb)) h1.2, h1.1]

theorem Reset_Reset (f : FirFilter ℚ) : f.Reset.Reset = f.Reset := by
  simp [FirFilter.Reset]

theorem idleInv_Stop (s : VoiceMessage) : IdleInv s.Stop := by
  intro _
  refine ⟨?_, ?_, rfl⟩
  · unfold Stop StopTimer; split <;> simp_all
  · show s.lowpassFilter.Reset.Reset = s.lowpassFilter.Reset
    exact Reset_Reset _

theorem idleInv_setCount (s : VoiceMessage) (n : Nat) (h : IdleInv s) :
    IdleInv { s with sampleCount := n } := h

/-- A recording tick of a busy machine leaves it busy or ends in `Stop`. -/
theorem recordTick_busy_or_Stop (cfg : Config) (s : VoiceMessage) (adcValue : Nat)
    (hb : s.isBusy = true) :
    (recordTick cfg s adcValue).isBusy = true
    ∨ ∃ t : VoiceMessage, recordTick cfg s adcValue = t.Stop := by
  simp only [recordTick]
  split
  · split
    · right; exact ⟨_, rfl⟩
    · left; simpa [pushBack] using hb
  · left; simpa using hb

/-- A playback tick of a busy machine leaves it busy or ends in `Stop`. -/
theorem playbackTick_busy_or_Stop (cfg : Config) (s : VoiceMessage)
    (hb : s.isBusy = true) :
    (playbackTick cfg s).isBusy = true ∨ ∃ t : VoiceMessage, playbackTick cfg s = t.Stop := by
  simp only [playbackTick]
  split
  · split
    · right; exact ⟨_, rfl⟩
    · left; simpa using hb
  · split
    · right; exact ⟨_, rfl⟩
    · left; simpa using hb

theorem idleInv_step (cfg : Config) (s : VoiceMessage) (a : Action)
    (h : IdleInv s) : IdleInv (step cfg s a) := by
  cases a with
  | startRecording armOk =>
    simp only [step, StartRecording]
    by_cases hb : s.isBusy = true
    · rw [if_pos hb]; exact h
    · rw [if_neg hb]
      obtain ⟨h1, h2, h3⟩ := h (by simpa using hb)
      cases armOk <;> simp [IdleInv, StartProcessing, StartTimer, h1, h2, h3]
  | startPlayback armOk =>
    simp only [step, StartPlayback]
    by_cases hb : s.isBusy = true
    · rw [if_pos hb]; exact h
    · rw [if_neg hb]
      by_cases he : s.audioBuffer.isEmpty = true
      · rw [if_pos he]; exact h
      · rw [if_neg he]
        obtain ⟨h1, h2, h3⟩ := h (by simpa using hb)
        cases armOk <;> simp [IdleInv, StartProcessing, StartTimer, h1, h2, h3]
  | stop => exact idleInv_Stop s
  | tick adcValue =>
    simp only [step]
    by_cases hb : s.isBusy = true
    · by_cases hr : s.isRecordingMode = true
      · rw [OnTimer_recording cfg s adcValue hb hr]
        rcases recordTick_busy_or_Stop cfg s adcValue hb with h1 | ⟨t, h1⟩
        · intro h2; simp [h1] at h2
        · rw [h1]; exact idleInv_setCount _ _ (idleInv_Stop t)
      · have hr2 : s.isRecordingMode = false := by simpa using hr
        rw [OnTimer_playing cfg s adcValue hb hr2]
        rcases playbackTick_busy_or_Stop cfg s hb with h1 | ⟨t, h1⟩
        · intro h2; simp [h1] at h2
        · rw [h1]; exact idleInv_setCount _ _ (idleInv_Stop t)
    · have hb2 : s.isBusy = false := by simpa using hb
      rw [OnTimer_idle cfg s adcValue hb2]; exact h

theorem idleInv_of_reachable (cfg : Config) (coeffs : List ℚ)
    (s : VoiceMessage) (hs : Reachable cfg coeffs s) : IdleInv s := by
  obtain ⟨acts, rfl⟩ := hs
  have key : ∀ (acts : List Action) (s : VoiceMessage),
      IdleInv s → IdleInv (run cfg s acts) := by
    intro acts
    induction acts with
    | nil => intro s h; exact h
    | cons a acts ih => intro s h; exact ih _ (idleInv_step cfg s a h)
  apply key
  intro _
  simp [new, Initialize, FirFilter.new, FirFilter.Reset]

/-- On a reachable Idle state `Stop` changes nothing but `sampleCounter`, which it sets to 0, and
the output-driver enable, which it clears. -/
theorem Stop_of_reachable_idle (cfg : Config) (coeffs : List ℚ) (s : VoiceMessage)
    (hs : Reachable cfg coeffs s) (hidle : s.isBusy = false) :
    s.Stop = { s with sampleCount := 0, pwmEnabled := false } := by
  obtain ⟨h1, h2, h3⟩ := idleInv_of_reachable cfg coeffs s hs hidle
  simp [Stop, StopTimer, h1, h2, h3, hidle]

end VoiceMessage

/-! ## Theorems: VoiceMessage, termination of sessions and the buffer frame -/

namespace VoiceMessage

/-- C6. With buffer capacity `C ≥ 1`, in every state reachable from construction the buffer
holds at most `C` samples and has never been reallocated; a tick of a Recording machine leaves
it Idle exactly when the buffer length is `C` after the tick, and then this tick appended the
last sample; and from a machine that is not Recording no sequence of requests without a
`StartRecording` changes the buffer. -/
theorem recording_bounded (cfg : Config) (coeffs : List ℚ) (hC : 1 ≤ cfg.BUFFER_SIZE)
    (s : VoiceMessage) (hs : Reachable cfg coeffs s) :
    s.audioBuffer.length ≤ cfg.BUFFER_SIZE
    ∧ s.audioCapacity = cfg.BUFFER_SIZE
    ∧ (∀ adcValue, s.isBusy = true → s.isRecordingMode = true →
        ((OnTimer cfg s adcValue).isBusy = false
          ↔ (OnTimer cfg s adcValue).audioBuffer.length = cfg.BUFFER_SIZE)
        ∧ ((OnTimer cfg s adcValue).isBusy = false →
            ∃ v, (OnTimer cfg s adcValue).audioBuffer = s.audioBuffer ++ [v]))
    ∧ (∀ later : List Action, (∀ a ∈ later, a.isStartRecording = false) →
        ¬ (s.isBusy = true ∧ s.isRecordingMode = true) →
        (run cfg s later).audioBuffer = s.audioBuffer) := by
  obtain ⟨h1, h2, h3⟩ := bufferInv_of_reachable cfg hC coeffs s hs
  refine ⟨by omega, h1, ?_, fun later hl hn => run_keeps_buffer cfg later s hl hn⟩
  intro adcValue hb hr
  have hlt := h3 hb hr
  rw [OnTimer_recording cfg s adcValue hb hr]
  obtain ⟨_, c4⟩ := recordTick_cases cfg s adcValue hlt
  rcases c4 with ⟨_, e1, e2⟩ | ⟨_, ⟨v, e1⟩, e2, e3⟩
  · simp only [e1, e2, hb]
    constructor
    · constructor
      · intro h; simp at h
      · intro h; omega
    · intro h; simp at h
  · simp only [e1, List.length_append, List.length_singleton]
    by_cases hfull : s.audioBuffer.length + 1 = s.audioCapacity
    · simp only [e2 hfull, true_iff, true_implies]
      exact ⟨by omega, v, rfl⟩
    · have hlt2 : s.audioBuffer.length + 1 < s.audioCapacity := by omega
      simp only [e3 hlt2, hb]
      constructor
      · constructor
        · intro h; simp at h
        · intro h; omega
      · intro h; simp at h

/-- Witness for C6: capacity 1, the machine Recording before its first tick; the tick fills the
buffer and the machine goes Idle. -/
theorem recording_bounded_witness :
    (run ⟨4, 1, 1023⟩ (new ⟨4, 1, 1023⟩ [1]) [.startRecording true]).audioBuffer.length ≤ 1
    ∧ (OnTimer ⟨4, 1, 1023⟩
        (run ⟨4, 1, 1023⟩ (new ⟨4, 1, 1023⟩ [1]) [.startRecording true]) 2048).isBusy = false :=
  ⟨(recording_bounded ⟨4, 1, 1023⟩ [1] (by decide) _ ⟨[.startRecording true], rfl⟩).1,
    by decide⟩

/-- C7. In every reachable state in which the machine is Playing, `playbackIndex` is strictly
below the buffer length, so the read of the tick handler is in bounds; the tick leaves the
buffer as it is, writes this tick's output value to the output driver also when it is the last
tick, and leaves the machine Idle exactly when `playbackIndex` equals the buffer length after
the tick. -/
theorem playback_in_bounds (cfg : Config) (coeffs : List ℚ) (s : VoiceMessage)
    (hs : Reachable cfg coeffs s) (hb : s.isBusy = true) (hr : s.isRecordingMode = false)
    (adcValue : Nat) :
    s.sampleIndex < s.audioBuffer.length
    ∧ (s.sampleCount % cfg.INTERP_RATE = 0 →
        s.audioBuffer[s.sampleIndex]? = some (playbackData cfg s))
    ∧ (OnTimer cfg s adcValue).audioBuffer = s.audioBuffer
    ∧ (OnTimer cfg s adcValue).pwmLevel = playbackLevel cfg s
    ∧ ((OnTimer cfg s adcValue).isBusy = false
        ↔ (OnTimer cfg s adcValue).sampleIndex = (OnTimer cfg s adcValue).audioBuffer.length)
    := by
  have hlt : s.sampleIndex < s.audioBuffer.length := playbackInv_of_reachable cfg coeffs s hs hb hr
  rw [OnTimer_playing cfg s adcValue hb hr]
  refine ⟨hlt, ?_, playbackTick_audioBuffer cfg s, playbackTick_pwmLevel cfg s, ?_⟩
  · intro hc
    simp [playbackData, hc, List.getD_eq_getElem?_getD, List.getElem?_eq_getElem hlt]
  · simp only [playbackTick_audioBuffer]
    rw [playbackTick_isBusy]
    have hidx := playbackTick_sampleIndex cfg s
    by_cases hc : s.sampleCount % cfg.INTERP_RATE = 0
    · simp only [hc, if_true] at hidx
      by_cases hge : (playbackTick cfg s).sampleIndex ≥ s.audioBuffer.length
      · simp only [hge, if_true, true_iff]; omega
      · simp only [hge, if_false, hb]
        constructor
        · intro h; simp at h
        · intro h; omega
    · simp only [hc, if_false] at hidx
      have hge : ¬ (playbackTick cfg s).sampleIndex ≥ s.audioBuffer.length := by omega
      simp only [hge, if_false, hb]
      constructor
      · intro h; simp at h
      · intro h; omega

/-- Witness for C7: the machine Playing a one-sample message, before its first tick. -/
theorem playback_in_bounds_witness :
    (run Config.source (new Config.source [1])
      [.startRecording true, .tick 2048, .stop, .startPlayback true]).sampleIndex
      < (run Config.source (new Config.source [1])
          [.startRecording true, .tick 2048, .stop, .startPlayback true]).audioBuffer.length :=
  (playback_in_bounds Config.source [1] _
    ⟨[.startRecording true, .tick 2048, .stop, .startPlayback true], rfl⟩
    (by decide) (by decide) 0).1

/-- C8 (evaluation at the failing input). A one-sample message is recorded, stopped and played
to its natural end. The machine is then Idle with `sampleCounter` 1, because the tick that
called `Stop` went on to increment the counter `Stop` had reset; `Stop` on this Idle state sets
the counter to 0, so it is not a no-op. -/
theorem Stop_idle_after_natural_end_not_noop :
    (run Config.source (new Config.source [1])
      [.startRecording true, .tick 2048, .stop, .startPlayback true, .tick 0]).isBusy = false
    ∧ (run Config.source (new Config.source [1])
      [.startRecording true, .tick 2048, .stop, .startPlayback true, .tick 0]).sampleCount = 1
    ∧ (run Config.source (new Config.source [1])
      [.startRecording true, .tick 2048, .stop, .startPlayback true, .tick 0]).Stop.sampleCount
        = 0
    ∧ (run Config.source (new Config.source [1])
      [.startRecording true, .tick 2048, .stop, .startPlayback true, .tick 0]).Stop
        ≠ run Config.source (new Config.source [1])
            [.startRecording true, .tick 2048, .stop, .startPlayback true, .tick 0] := by
  refine ⟨by decide, by decide, by decide, ?_⟩
  intro h
  have h2 := congrArg VoiceMessage.sampleCount h
  revert h2
  decide

/-- C9. `Stop` and every tick of a machine that is not Recording (a playback tick, an Idle
tick) leave the sample buffer unchanged; any request leaves it unchanged unless it is a
`StartRecording` on a machine that is not busy, which empties it, or a tick of a Recording
machine, which may append one sample; so after `Stop`, a `StartPlayback` followed by any number
of ticks still holds exactly the buffer that was recorded. -/
theorem buffer_frame (cfg : Config) (s : VoiceMessage) :
    s.Stop.audioBuffer = s.audioBuffer
    ∧ (∀ adcValue, ¬ (s.isBusy = true ∧ s.isRecordingMode = true) →
        (OnTimer cfg s adcValue).audioBuffer = s.audioBuffer)
    ∧ (∀ a : Action,
        (step cfg s a).audioBuffer = s.audioBuffer
        ∨ (∃ armOk, a = .startRecording armOk ∧ s.isBusy = false
            ∧ (step cfg s a).audioBuffer = [])
        ∨ (∃ adcValue v, a = .tick adcValue ∧ s.isBusy = true ∧ s.isRecordingMode = true
            ∧ (step cfg s a).audioBuffer = s.audioBuffer ++ [v]))
    ∧ (∀ (armOk : Bool) (adcValues : List Nat),
        (run cfg s (.stop :: .startPlayback armOk :: adcValues.map Action.tick)).audioBuffer
          = s.audioBuffer) := by
  refine ⟨Stop_audioBuffer s, ?_, ?_, ?_⟩
  · intro adcValue hn
    exact (step_keeps_buffer cfg s (.tick adcValue) rfl hn).1
  · intro a
    by_cases hrec : s.isBusy = true ∧ s.isRecordingMode = true
    · cases a with
      | startRecording armOk =>
        left; simp [step, StartRecording, hrec.1]
      | startPlayback armOk =>
        left; simp [step, StartPlayback, hrec.1]
      | stop => left; exact Stop_audioBuffer s
      | tick adcValue =>
        have hstep : (step cfg s (.tick adcValue)).audioBuffer
            = (recordTick cfg s adcValue).audioBuffer := by
          simp only [step]
          rw [OnTimer_recording cfg s adcValue hrec.1 hrec.2]
        rcases recordTick_audioBuffer cfg s adcValue with e | ⟨v, e⟩
        · left; rw [hstep, e]
        · right; right
          exact ⟨adcValue, v, rfl, hrec.1, hrec.2, by rw [hstep, e]⟩
    · cases hsr : a.isStartRecording with
      | false => left; exact (step_keeps_buffer cfg s a hsr hrec).1
      | true =>
        cases a with
        | startRecording armOk =>
          by_cases hb : s.isBusy = true
          · left; simp [step, StartRecording, hb]
          · right; left
            refine ⟨armOk, rfl, by simpa using hb, ?_⟩
            by_cases ht : s.timerStarted = true <;> cases armOk <;>
              simp [step, StartRecording, StartProcessing, StartTimer, ht, hb]
        | startPlayback armOk => simp [Action.isStartRecording] at hsr
        | stop => simp [Action.isStartRecording] at hsr
        | tick adcValue => simp [Action.isStartRecording] at hsr
  · intro armOk adcValues
    have hstop : (run cfg s (.stop :: .startPlayback armOk :: adcValues.map Action.tick))
        = run cfg s.Stop (.startPlayback armOk :: adcValues.map Action.tick) := rfl
    rw [hstop, run_keeps_buffer cfg _ s.Stop ?_ (by simp [Stop_isBusy]), Stop_audioBuffer]
    intro a ha
    rcases List.mem_cons.1 ha with h | h
    · rw [h]; rfl
    · obtain ⟨n, _, hn⟩ := List.mem_map.1 h
      rw [← hn]; rfl

/-- Witness for C9: a one-sample message is recorded; `Stop`, `StartPlayback` and the playback
tick leave it in the buffer. -/
theorem buffer_frame_witness :
    (run Config.source
      (run Config.source (new Config.source [1]) [.startRecording true, .tick 4000])
      [.stop, .startPlayback true, .tick 0]).audioBuffer
      = (run Config.source (new Config.source [1])
          [.startRecording true, .tick 4000]).audioBuffer
    ∧ (run Config.source (new Config.source [1])
          [.startRecording true, .tick 4000]).audioBuffer.length = 1 :=
  ⟨(buffer_frame Config.source
      (run Config.source (new Config.source [1]) [.startRecording true, .tick 4000])).2.2.2
      true [0],
    by decide⟩

end VoiceMessage

/-! ## Theorems: VoiceMessage, timer, filter and index invariants -/

namespace VoiceMessage

theorem Stop_timerStarted (s : VoiceMessage) : s.Stop.timerStarted = false := by
  unfold Stop StopTimer; split <;> simp_all

/-- One request keeps the timer armed exactly while the machine is busy. -/
theorem timer_busy_step (cfg : Config) (s : VoiceMessage) (a : Action)
    (h : s.timerStarted = s.isBusy) : (step cfg s a).timerStarted = (step cfg s a).isBusy := by
  cases a with
  | startRecording armOk =>
    simp only [step, StartRecording]
    by_cases hb : s.isBusy = true
    · rw [if_pos hb]; exact h
    · rw [if_neg hb]
      have hb2 : s.isBusy = false := by simpa using hb
      have ht : s.timerStarted = false := by rw [h]; exact hb2
      cases armOk <;> simp [StartProcessing, StartTimer, ht, hb2]
  | startPlayback armOk =>
    simp only [step, StartPlayback]
    by_cases hb : s.isBusy = true
    · rw [if_pos hb]; exact h
    · rw [if_neg hb]
      by_cases he : s.audioBuffer.isEmpty = true
      · rw [if_pos he]; exact h
      · rw [if_neg he]
        have hb2 : s.isBusy = false := by simpa using hb
        have ht : s.timerStarted = false := by rw [h]; exact hb2
        cases armOk <;> simp [StartProcessing, StartTimer, ht, hb2]
  | stop => simp [step, Stop_timerStarted, Stop_isBusy]
  | tick adcValue =>
    simp only [step]
    by_cases hb : s.isBusy = true
    · by_cases hr : s.isRecordingMode = true
      · rw [OnTimer_recording cfg s adcValue hb hr]
        show (recordTick cfg s adcValue).timerStarted = (recordTick cfg s adcValue).isBusy
        simp only [recordTick]
        split
        · split
          · simp [Stop_timerStarted, Stop_isBusy]
          · simpa [pushBack] using h
        · simpa using h
      · have hr2 : s.isRecordingMode = false := by simpa using hr
        rw [OnTimer_playing cfg s adcValue hb hr2]
        show (playbackTick cfg s).timerStarted = (playbackTick cfg s).isBusy
        simp only [playbackTick]
        split <;> split
        all_goals first
          | exact h
          | simp [Stop_timerStarted, Stop_isBusy]
    · have hb2 : s.isBusy = false := by simpa using hb
      rw [OnTimer_idle cfg s adcValue hb2]; exact h

theorem timer_busy_run (cfg : Config) (acts : List Action) :
    ∀ s : VoiceMessage, s.timerStarted = s.isBusy →
      (run cfg s acts).timerStarted = (run cfg s acts).isBusy := by
  induction acts with
  | nil => intro s h; exact h
  | cons a acts ih => intro s h; exact ih _ (timer_busy_step cfg s a h)

/-- C19. In every state reachable from construction by any sequence of `StartRecording`,
`StartPlayback`, `Stop` and completed timer ticks, with arbitrary timer-arm outcomes, the
machine is busy if and only if the periodic timer is armed. -/
theorem busy_iff_timer_armed (cfg : Config) (coeffs : List ℚ) (acts : List Action) :
    (run cfg (new cfg coeffs) acts).isBusy = true
      ↔ (run cfg (new cfg coeffs) acts).timerStarted = true := by
  rw [timer_busy_run cfg acts (new cfg coeffs) rfl]

end VoiceMessage

namespace VoiceMessage

theorem Stop_lowpassFilter (s : VoiceMessage) : s.Stop.lowpassFilter = s.lowpassFilter.Reset :=
  rfl

/-- The filter after a tick is the stepped filter, or the stepped filter reset. -/
theorem OnTimer_lowpassFilter (cfg : Config) (s : VoiceMessage) (adcValue : Nat) :
    (OnTimer cfg s adcValue).lowpassFilter = s.lowpassFilter
    ∨ ∃ x : ℚ, (OnTimer cfg s adcValue).lowpassFilter = (s.lowpassFilter.Process x).2
        ∨ (OnTimer cfg s adcValue).lowpassFilter = (s.lowpassFilter.Process x).2.Reset := by
  by_cases hb : s.isBusy = true
  · right
    by_cases hr : s.isRecordingMode = true
    · refine ⟨(adcValue : ℚ) - 2048, ?_⟩
      rw [OnTimer_recording cfg s adcValue hb hr]
      show (recordTick cfg s adcValue).lowpassFilter = _ ∨ (recordTick cfg s adcValue).lowpassFilter = _
      simp only [recordTick]
      split
      · split
        · right; simp [Stop_lowpassFilter, pushBack]
        · left; simp [pushBack]
      · left; rfl
    · have hr2 : s.isRecordingMode = false := by simpa using hr
      refine ⟨(playbackData cfg s : ℚ), ?_⟩
      rw [OnTimer_playing cfg s adcValue hb hr2]
      show (playbackTick cfg s).lowpassFilter = _ ∨ (playbackTick cfg s).lowpassFilter = _
      simp only [playbackTick]
      split <;> split
      all_goals first
        | (left; rfl)
        | (right; rfl)
  · left
    have hb2 : s.isBusy = false := by simpa using hb
    rw [OnTimer_idle cfg s adcValue hb2]

theorem StartRecording_lowpassFilter (s : VoiceMessage) (armOk : Bool) :
    (s.StartRecording armOk).2.lowpassFilter = s.lowpassFilter := by
  simp only [StartRecording, StartProcessing, StartTimer]
  split
  · rfl
  · split <;> cases armOk <;> simp

theorem StartPlayback_lowpassFilter (s : VoiceMessage) (armOk : Bool) :
    (s.StartPlayback armOk).2.lowpassFilter = s.lowpassFilter := by
  simp only [StartPlayback, StartProcessing, StartTimer]
  split
  · rfl
  · split
    · rfl
    · split <;> cases armOk <;> simp

/-- The filter of a reachable state has the constructor's coefficients and one history slot per
coefficient. -/
theorem filter_shape_of_reachable (cfg : Config) (coeffs : List ℚ) (s : VoiceMessage)
    (hs : Reachable cfg coeffs s) :
    s.lowpassFilter.coeffs = coeffs ∧ s.lowpassFilter.buffer.length = coeffs.length := by
  obtain ⟨acts, rfl⟩ := hs
  have key : ∀ (acts : List Action) (s : VoiceMessage),
      (s.lowpassFilter.coeffs = coeffs ∧ s.lowpassFilter.buffer.length = coeffs.length) →
      (run cfg s acts).lowpassFilter.coeffs = coeffs
        ∧ (run cfg s acts).lowpassFilter.buffer.length = coeffs.length := by
    intro acts
    induction acts with
    | nil => intro s h; exact h
    | cons a acts ih =>
      intro s h
      apply ih
      cases a with
      | startRecording armOk => simp only [step]; rw [StartRecording_lowpassFilter]; exact h
      | startPlayback armOk => simp only [step]; rw [StartPlayback_lowpassFilter]; exact h
      | stop => simpa [step, Stop_lowpassFilter, FirFilter.Reset] using h
      | tick adcValue =>
        simp only [step]
        rcases OnTimer_lowpassFilter cfg s adcValue with e | ⟨x, e | e⟩
        · rw [e]; exact h
        · rw [e]; simpa [FirFilter.Process] using h
        · rw [e]; simpa [FirFilter.Process, FirFilter.Reset] using h
  apply key
  simp [new, Initialize, FirFilter.new, FirFilter.Reset]

/-- C16. In every Idle state reachable from construction the filter history is all zeros and its
write index is 0, that is, the filter is in the state `Reset` leaves a fresh filter in; the start
operations do not touch the filter, so the first tick of a session started from this state
processes its sample through the freshly reset filter. -/
theorem filter_reset_when_idle (cfg : Config) (coeffs : List ℚ) (s : VoiceMessage)
    (hs : Reachable cfg coeffs s) (hidle : s.isBusy = false) (armOk : Bool) :
    s.lowpassFilter.buffer = List.replicate coeffs.length 0
    ∧ s.lowpassFilter.bufferIndex = 0
    ∧ s.lowpassFilter = (FirFilter.new coeffs).Reset
    ∧ (s.StartRecording armOk).2.lowpassFilter = (FirFilter.new coeffs).Reset
    ∧ (s.StartPlayback armOk).2.lowpassFilter = (FirFilter.new coeffs).Reset := by
  obtain ⟨_, h2, _⟩ := idleInv_of_reachable cfg coeffs s hs hidle
  obtain ⟨hc, hl⟩ := filter_shape_of_reachable cfg coeffs s hs
  have hbuf : s.lowpassFilter.buffer = List.replicate coeffs.length 0 := by
    rw [← h2]; simp [FirFilter.Reset, hl]
  have hidx : s.lowpassFilter.bufferIndex = 0 := by
    rw [← h2]; rfl
  have hall : s.lowpassFilter = (FirFilter.new coeffs).Reset := by
    cases hf : s.lowpassFilter with
    | mk c b i =>
      rw [hf] at hc hbuf hidx
      simp only at hc hbuf hidx
      simp [FirFilter.new, FirFilter.Reset, hc, hbuf, hidx]
  refine ⟨hbuf, hidx, hall, ?_, ?_⟩
  · rw [StartRecording_lowpassFilter, hall]
  · rw [StartPlayback_lowpassFilter, hall]

/-- Witness for C16: the Idle state after a one-sample message was recorded and played to
its end. -/
theorem filter_reset_when_idle_witness :
    (run Config.source (new Config.source [1, 2])
      [.startRecording true, .tick 2048, .stop, .startPlayback true, .tick 0]).lowpassFilter.buffer
      = List.replicate 2 0 :=
  (filter_reset_when_idle Config.source [1, 2] _
    ⟨[.startRecording true, .tick 2048, .stop, .startPlayback true, .tick 0], rfl⟩
    (by decide) true).1

end VoiceMessage

namespace VoiceMessage

/-- C18 (counterexample). A one-sample message is recorded, stopped and played to its end, which
leaves `playbackIndex` at 1; the next `StartRecording` empties the buffer and the machine is
Recording with `playbackIndex` 1 above the buffer length 0. -/
theorem playbackIndex_exceeds_length :
    (run Config.source (new Config.source [1])
      [.startRecording true, .tick 2048, .stop, .startPlayback true, .tick 0,
        .startRecording true]).isBusy = true
    ∧ (run Config.source (new Config.source [1])
      [.startRecording true, .tick 2048, .stop, .startPlayback true, .tick 0,
        .startRecording true]).isRecordingMode = true
    ∧ (run Config.source (new Config.source [1])
      [.startRecording true, .tick 2048, .stop, .startPlayback true, .tick 0,
        .startRecording true]).sampleIndex = 1
    ∧ (run Config.source (new Config.source [1])
      [.startRecording true, .tick 2048, .stop, .startPlayback true, .tick 0,
        .startRecording true]).audioBuffer.length = 0
    ∧ ¬ ((run Config.source (new Config.source [1])
      [.startRecording true, .tick 2048, .stop, .startPlayback true, .tick 0,
        .startRecording true]).sampleIndex
        ≤ (run Config.source (new Config.source [1])
          [.startRecording true, .tick 2048, .stop, .startPlayback true, .tick 0,
            .startRecording true]).audioBuffer.length) := by
  refine ⟨by decide, by decide, by decide, by decide, by decide⟩

/-- One request keeps the read index within the buffer while the mode flag says playback. -/
theorem index_le_step (cfg : Config) (s : VoiceMessage) (a : Action)
    (hp : PlaybackInv s)
    (h : s.isRecordingMode = false → s.sampleIndex ≤ s.audioBuffer.length) :
    (step cfg s a).isRecordingMode = false →
      (step cfg s a).sampleIndex ≤ (step cfg s a).audioBuffer.length := by
  cases a with
  | startRecording armOk =>
    simp only [step, StartRecording]
    by_cases hb : s.isBusy = true
    · rw [if_pos hb]; exact h
    · rw [if_neg hb]
      by_cases ht : s.timerStarted = true <;> cases armOk <;>
        simp [StartProcessing, StartTimer, ht]
  | startPlayback armOk =>
    simp only [step, StartPlayback]
    by_cases hb : s.isBusy = true
    · rw [if_pos hb]; exact h
    · rw [if_neg hb]
      by_cases he : s.audioBuffer.isEmpty = true
      · rw [if_pos he]; exact h
      · rw [if_neg he]
        by_cases ht : s.timerStarted = true <;> cases armOk <;>
          simp [StartProcessing, StartTimer, ht]
  | stop => simpa [step, Stop_isRecordingMode, Stop_sampleIndex, Stop_audioBuffer] using h
  | tick adcValue =>
    simp only [step]
    by_cases hb : s.isBusy = true
    · by_cases hr : s.isRecordingMode = true
      · rw [OnTimer_recording cfg s adcValue hb hr]
        simp [recordTick_isRecordingMode, hr]
      · have hr2 : s.isRecordingMode = false := by simpa using hr
        rw [OnTimer_playing cfg s adcValue hb hr2]
        intro _
        show (playbackTick cfg s).sampleIndex ≤ (playbackTick cfg s).audioBuffer.length
        rw [playbackTick_audioBuffer, playbackTick_sampleIndex]
        have hlt := hp hb hr2
        split <;> omega
    · have hb2 : s.isBusy = false := by simpa using hb
      rw [OnTimer_idle cfg s adcValue hb2]; exact h

/-- C18 (amended). In every reachable state whose mode flag says playback, that is before the
first recording, while Playing and when Idle after a playback, `playbackIndex` is at most the
buffer length, and strictly below it while Playing. -/
theorem playbackIndex_le_length (cfg : Config) (coeffs : List ℚ) (s : VoiceMessage)
    (hs : Reachable cfg coeffs s) (hmode : s.isRecordingMode = false) :
    s.sampleIndex ≤ s.audioBuffer.length
    ∧ (s.isBusy = true → s.sampleIndex < s.audioBuffer.length) := by
  refine ⟨?_, fun hb => playbackInv_of_reachable cfg coeffs s hs hb hmode⟩
  obtain ⟨acts, rfl⟩ := hs
  have key : ∀ (acts : List Action) (s : VoiceMessage),
      (PlaybackInv s ∧ (s.isRecordingMode = false → s.sampleIndex ≤ s.audioBuffer.length)) →
      ((run cfg s acts).isRecordingMode = false →
        (run cfg s acts).sampleIndex ≤ (run cfg s acts).audioBuffer.length) := by
    intro acts
    induction acts with
    | nil => intro s h; exact h.2
    | cons a acts ih =>
      intro s h
      exact ih _ ⟨playbackInv_step cfg s a h.1, index_le_step cfg s a h.1 h.2⟩
  apply key _ _ _ hmode
  constructor
  · simp [PlaybackInv, new, Initialize]
  · simp [new, Initialize]

/-- Witness for C18 (amended): the Idle state after a one-sample message was played to
its end. -/
theorem playbackIndex_le_length_witness :
    (run Config.source (new Config.source [1])
      [.startRecording true, .tick 2048, .stop, .startPlayback true, .tick 0]).sampleIndex
      ≤ (run Config.source (new Config.source [1])
          [.startRecording true, .tick 2048, .stop, .startPlayback true, .tick 0]).audioBuffer.length :=
  (playbackIndex_le_length Config.source [1] _
    ⟨[.startRecording true, .tick 2048, .stop, .startPlayback true, .tick 0], rfl⟩
    (by decide)).1

end VoiceMessage

/-! ## Theorems: FirFilter, layout of the history -/

namespace FirFilter

variable {α : Type}

theorem getD_reverse [Zero α] (xs : List α) (k : Nat) :
    xs.reverse.getD k 0 = if k < xs.length then xs.getD (xs.length - 1 - k) 0 else 0 := by
  by_cases hk : k < xs.length
  · rw [if_pos hk, List.getD_eq_getElem?_getD, List.getD_eq_getElem?_getD,
      List.getElem?_reverse hk]
  · rw [if_neg hk, List.getD_eq_getElem?_getD, List.getElem?_eq_none (by simp; omega)]
    rfl

/-- C17. For a filter with `N ≥ 1` coefficients, after any sequence `xs` of `Process` calls on a
freshly constructed filter or on a filter that was just reset, the history has `N` slots,
`writeIndex` is the number of calls modulo `N` and so lies in `[0, N)`, and for each `j < N` the
slot `(writeIndex + j) mod N` holds the sample fed `N - j` calls ago, 0 where fewer than `N - j`
samples have been fed: the oldest sample is at `writeIndex`, the most recent one slot behind
it. -/
theorem history_layout [Semiring α] (c : List α) (hN : 1 ≤ c.length) (g : FirFilter α)
    (hg : g = FirFilter.new c
      ∨ ∃ f : FirFilter α, f.coeffs = c ∧ f.buffer.length = c.length ∧ g = f.Reset)
    (xs : List α) :
    (processAll g xs).2.buffer.length = c.length
    ∧ (processAll g xs).2.bufferIndex < c.length
    ∧ (processAll g xs).2.bufferIndex = xs.length % c.length
    ∧ (∀ j, j < c.length →
        (processAll g xs).2.buffer.getD (((processAll g xs).2.bufferIndex + j) % c.length) 0
          = if c.length - j ≤ xs.length then xs.getD (xs.length - (c.length - j)) 0 else 0)
    ∧ (processAll g xs).2.coeffs = c := by
  have h0 : HistoryOf g c [] := by
    rcases hg with rfl | ⟨f, hc, hl, rfl⟩
    · exact historyOf_new c
    · rw [← hc] at hl ⊢
      exact historyOf_Reset f hl
  obtain ⟨hc, hlen, hidx, hist⟩ := (processAll_history c hN xs g [] h0).1
  have hidx2 : (processAll g xs).2.bufferIndex = xs.length % c.length := by
    simpa using hidx
  refine ⟨hlen, ?_, hidx2, ?_, hc⟩
  · rw [hidx2]; exact Nat.mod_lt _ hN
  · intro j hj
    have h1 := hist (c.length - 1 - j) (by omega)
    simp only [List.append_nil, List.length_reverse] at h1
    have e : xs.length + c.length - (c.length - 1 - j + 1) = xs.length + j := by omega
    rw [e] at h1
    rw [hidx2, Nat.mod_add_mod, h1, getD_reverse]
    by_cases hle : c.length - j ≤ xs.length
    · rw [if_pos (by omega), if_pos hle]
      congr 1
      omega
    · rw [if_neg (by omega), if_neg hle]

/-- Witness for C17: five samples through a fresh three-tap integer filter. -/
theorem history_layout_witness :
    (processAll (FirFilter.new ([1, 2, 3] : List ℤ)) [10, 20, 30, 40, 50]).2
      = ⟨[1, 2, 3], [40, 50, 30], 2⟩
    ∧ (processAll (FirFilter.new ([1, 2, 3] : List ℤ)) [10, 20, 30, 40, 50]).2.bufferIndex
        = 5 % 3 :=
  ⟨by decide,
    (history_layout ([1, 2, 3] : List ℤ) (by decide) _ (Or.inl rfl) [10, 20, 30, 40, 50]).2.2.1⟩

end FirFilter

/-! ## Theorems: VoiceMessage, phase of a session -/

namespace VoiceMessage

/-- C15 (evaluation at the failing input). A one-sample message is recorded, stopped and played
to its natural end; the machine is then Idle with `sampleCounter` 1. A successful
`StartRecording` from this state leaves `sampleCounter` at 1 and the first tick of the session
appends nothing; a successful `StartPlayback` leaves it at 1 and the first tick reads no buffer
entry. -/
theorem session_after_natural_end_starts_at_phase_one :
    (run Config.source (new Config.source [1])
      [.startRecording true, .tick 2048, .stop, .startPlayback true, .tick 0]).isBusy = false
    ∧ (run Config.source (new Config.source [1])
      [.startRecording true, .tick 2048, .stop, .startPlayback true, .tick 0,
        .startRecording true]).isBusy = true
    ∧ (run Config.source (new Config.source [1])
      [.startRecording true, .tick 2048, .stop, .startPlayback true, .tick 0,
        .startRecording true]).sampleCount = 1
    ∧ (run Config.source (new Config.source [1])
      [.startRecording true, .tick 2048, .stop, .startPlayback true, .tick 0,
        .startRecording true, .tick 2048]).audioBuffer = []
    ∧ (run Config.source (new Config.source [1])
      [.startRecording true, .tick 2048, .stop, .startPlayback true, .tick 0,
        .startPlayback true]).isBusy = true
    ∧ (run Config.source (new Config.source [1])
      [.startRecording true, .tick 2048, .stop, .startPlayback true, .tick 0,
        .startPlayback true]).sampleCount = 1
    ∧ (run Config.source (new Config.source [1])
      [.startRecording true, .tick 2048, .stop, .startPlayback true, .tick 0,
        .startPlayback true, .tick 0]).sampleIndex = 0
    ∧ (run Config.source (new Config.source [1])
      [.startRecording true, .tick 2048, .stop, .startPlayback true, .tick 0,
        .startPlayback true, .tick 0]).isBusy = true := by
  refine ⟨by decide, by decide, by decide, by decide, by decide, by decide, by decide,
    by decide⟩

end VoiceMessage

/-! ## Theorems: VoiceMessage, counting the ticks of a session -/

namespace VoiceMessage

theorem ceilDiv_eq (k D : Nat) (hD : 1 ≤ D) :
    ceilDiv k D = if k % D = 0 then k / D else k / D + 1 := by
  unfold ceilDiv
  have h := Nat.div_add_mod k D
  have hr := Nat.mod_lt k hD
  generalize k / D = q at *
  generalize k % D = r at *
  subst h
  by_cases h0 : r = 0
  · subst h0
    rw [if_pos rfl]
    have e : D * q + 0 + D - 1 = (D - 1) + D * q := by omega
    rw [e, Nat.add_mul_div_left _ _ hD, Nat.div_eq_of_lt (by omega)]
    omega
  · rw [if_neg h0]
    have e : D * q + r + D - 1 = (r - 1) + D * (q + 1) := by
      rw [Nat.mul_add, Nat.mul_one]; omega
    rw [e, Nat.add_mul_div_left _ _ hD, Nat.div_eq_of_lt (by omega)]
    omega

theorem ceilDiv_succ_of_mod_zero (j D : Nat) (hD : 1 ≤ D) (h : j % D = 0) :
    ceilDiv (j + 1) D = ceilDiv j D + 1 := by
  rw [ceilDiv_eq j D hD, if_pos h]
  unfold ceilDiv
  have e : j + 1 + D - 1 = j + D := by omega
  rw [e, Nat.add_div_right _ hD]

theorem ceilDiv_succ_of_mod_ne (j D : Nat) (hD : 1 ≤ D) (h : j % D ≠ 0) :
    ceilDiv (j + 1) D = ceilDiv j D := by
  rw [ceilDiv_eq j D hD, if_neg h]
  unfold ceilDiv
  have e : j + 1 + D - 1 = j + D := by omega
  rw [e, Nat.add_div_right _ hD]

theorem ceilDiv_mul (m D : Nat) (hD : 1 ≤ D) : ceilDiv (D * m) D = m := by
  rw [ceilDiv_eq _ D hD, if_pos (Nat.mul_mod_right D m), Nat.mul_div_cancel_left _ hD]

theorem ceilDiv_mono (j k D : Nat) (h : j ≤ k) : ceilDiv j D ≤ ceilDiv k D := by
  unfold ceilDiv
  exact Nat.div_le_div_right (by omega)

theorem ceilDiv_le (j m D : Nat) (hD : 1 ≤ D) (h : j ≤ D * m) : ceilDiv j D ≤ m :=
  calc ceilDiv j D ≤ ceilDiv (D * m) D := ceilDiv_mono _ _ _ h
    _ = m := ceilDiv_mul m D hD

end VoiceMessage

namespace VoiceMessage

/-- A recording tick whose counter is not a multiple of `DECIM_RATE` only steps the filter. -/
theorem recordTick_of_skip (cfg : Config) (s : VoiceMessage) (adcValue : Nat)
    (hc : s.sampleCount % cfg.DECIM_RATE ≠ 0) :
    recordTick cfg s adcValue
      = { s with lowpassFilter := (s.lowpassFilter.Process ((adcValue : ℚ) - 2048)).2 } := by
  simp [recordTick, hc]

/-- A recording tick whose counter is a multiple of `DECIM_RATE` appends `recordSample`; the
machine goes on when the buffer is not full afterwards. -/
theorem recordTick_of_store (cfg : Config) (s : VoiceMessage) (adcValue : Nat)
    (hc : s.sampleCount % cfg.DECIM_RATE = 0)
    (hlt : s.audioBuffer.length + 1 < s.audioCapacity) :
    recordTick cfg s adcValue
      = { s with
          lowpassFilter := (s.lowpassFilter.Process ((adcValue : ℚ) - 2048)).2
          audioBuffer := s.audioBuffer ++ [recordSample s adcValue] } := by
  have h1 : s.audioBuffer.length < s.audioCapacity := by omega
  have h2 : ¬ s.audioCapacity ≤ s.audioBuffer.length + 1 := by omega
  simp [recordTick, pushBack, recordSample, hc, h1, h2]

/-- A recording tick whose counter is a multiple of `DECIM_RATE` appends `recordSample`; the
machine stops when the buffer is full afterwards. -/
theorem recordTick_of_full (cfg : Config) (s : VoiceMessage) (adcValue : Nat)
    (hc : s.sampleCount % cfg.DECIM_RATE = 0)
    (hlt : s.audioBuffer.length < s.audioCapacity)
    (hfull : s.audioCapacity ≤ s.audioBuffer.length + 1) :
    recordTick cfg s adcValue
      = Stop { s with
          lowpassFilter := (s.lowpassFilter.Process ((adcValue : ℚ) - 2048)).2
          audioBuffer := s.audioBuffer ++ [recordSample s adcValue] } := by
  simp [recordTick, pushBack, recordSample, hc, hlt, hfull]

/-- A tick of a Recording machine whose session has not yet reached its last sample. -/
theorem recordingAt_tick (cfg : Config) (s : VoiceMessage) (k adcValue : Nat)
    (hD : 1 ≤ cfg.DECIM_RATE) (h : RecordingAt cfg s k)
    (hk : k + 1 ≤ cfg.DECIM_RATE * (cfg.BUFFER_SIZE - 1)) (h32 : k + 1 < 2 ^ 32) :
    RecordingAt cfg (OnTimer cfg s adcValue) (k + 1) := by
  obtain ⟨hb, hr, hcnt, hcap, hlen⟩ := h
  have hle : ceilDiv (k + 1) cfg.DECIM_RATE ≤ cfg.BUFFER_SIZE - 1 := ceilDiv_le _ _ _ hD hk
  have hpos : 1 ≤ cfg.BUFFER_SIZE := by
    rcases Nat.eq_zero_or_pos (cfg.BUFFER_SIZE - 1) with h0 | h0
    · rw [h0] at hk; simp at hk
    · omega
  rw [OnTimer_recording cfg s adcValue hb hr]
  by_cases hc : k % cfg.DECIM_RATE = 0
  · have e := ceilDiv_succ_of_mod_zero k _ hD hc
    rw [recordTick_of_store cfg s adcValue (by rw [hcnt]; exact hc) (by omega)]
    refine ⟨hb, hr, ?_, hcap, ?_⟩
    · show (s.sampleCount + 1) % 2 ^ 32 = k + 1
      rw [hcnt, Nat.mod_eq_of_lt h32]
    · simp [hlen, e]
  · have e := ceilDiv_succ_of_mod_ne k _ hD hc
    rw [recordTick_of_skip cfg s adcValue (by rw [hcnt]; exact hc)]
    refine ⟨hb, hr, ?_, hcap, ?_⟩
    · show (s.sampleCount + 1) % 2 ^ 32 = k + 1
      rw [hcnt, Nat.mod_eq_of_lt h32]
    · simp [hlen, e]

/-- The tick on which a recording session stores its last sample leaves the machine Idle with
a full buffer. -/
theorem recordingAt_last_tick (cfg : Config) (s : VoiceMessage) (adcValue : Nat)
    (hD : 1 ≤ cfg.DECIM_RATE) (hC : 1 ≤ cfg.BUFFER_SIZE)
    (h : RecordingAt cfg s (cfg.DECIM_RATE * (cfg.BUFFER_SIZE - 1))) :
    (OnTimer cfg s adcValue).isBusy = false
    ∧ (OnTimer cfg s adcValue).audioBuffer.length = cfg.BUFFER_SIZE := by
  obtain ⟨hb, hr, hcnt, hcap, hlen⟩ := h
  rw [ceilDiv_mul _ _ hD] at hlen
  rw [OnTimer_recording cfg s adcValue hb hr]
  have hc : s.sampleCount % cfg.DECIM_RATE = 0 := by
    rw [hcnt]; exact Nat.mul_mod_right _ _
  rw [recordTick_of_full cfg s adcValue hc (by omega) (by omega)]
  refine ⟨rfl, ?_⟩
  simp [Stop_audioBuffer, hlen]
  omega

/-- Ticks of an Idle machine change nothing. -/
theorem run_ticks_idle (cfg : Config) (adcValues : List Nat) :
    ∀ s : VoiceMessage, s.isBusy = false → run cfg s (adcValues.map Action.tick) = s := by
  induction adcValues with
  | nil => intro s _; rfl
  | cons a as ih =>
    intro s h
    simp only [List.map_cons, run, step]
    rw [OnTimer_idle cfg s a h]
    exact ih s h

theorem recordingAt_run (cfg : Config) (hD : 1 ≤ cfg.DECIM_RATE) (adcValues : List Nat) :
    ∀ (s : VoiceMessage) (j : Nat), RecordingAt cfg s j →
      j + adcValues.length ≤ cfg.DECIM_RATE * (cfg.BUFFER_SIZE - 1) →
      j + adcValues.length < 2 ^ 32 →
      RecordingAt cfg (run cfg s (adcValues.map Action.tick)) (j + adcValues.length) := by
  induction adcValues with
  | nil => intro s j h _ _; simpa using h
  | cons a as ih =>
    intro s j h hk h32
    simp only [List.length_cons] at hk h32
    have h1 := recordingAt_tick cfg s j a hD h (by omega) (by omega)
    have h2 := ih (OnTimer cfg s a) (j + 1) h1 (by omega) (by omega)
    simp only [List.map_cons, run, step, List.length_cons]
    have e : j + (as.length + 1) = j + 1 + as.length := by omega
    rw [e]; exact h2

end VoiceMessage

namespace VoiceMessage

/-- A tick of a Playing machine whose session has not yet reached its last sample. -/
theorem playingAt_tick (cfg : Config) (s : VoiceMessage) (buf : List Int) (k adcValue : Nat)
    (hD : 1 ≤ cfg.INTERP_RATE) (h : PlayingAt cfg s buf k)
    (hk : k + 1 ≤ cfg.INTERP_RATE * (buf.length - 1)) (h32 : k + 1 < 2 ^ 32) :
    PlayingAt cfg (OnTimer cfg s adcValue) buf (k + 1) := by
  obtain ⟨hb, hr, hcnt, hbuf, hidx⟩ := h
  have hle : ceilDiv (k + 1) cfg.INTERP_RATE ≤ buf.length - 1 := ceilDiv_le _ _ _ hD hk
  have hpos : 2 ≤ buf.length := by
    rcases Nat.eq_zero_or_pos (buf.length - 1) with h0 | h0
    · rw [h0] at hk; simp at hk
    · omega
  rw [OnTimer_playing cfg s adcValue hb hr]
  have hi := playbackTick_sampleIndex cfg s
  have hbusy := playbackTick_isBusy cfg s
  have hcount : (playbackTick cfg s).sampleCount = s.sampleCount ∨
      (playbackTick cfg s).isBusy = false := by
    simp only [playbackTick]
    split <;> split
    all_goals first
      | (left; rfl)
      | (right; rfl)
  by_cases hc : k % cfg.INTERP_RATE = 0
  · have e := ceilDiv_succ_of_mod_zero k _ hD hc
    rw [hcnt, if_pos hc] at hi
    have hnot : ¬ (playbackTick cfg s).sampleIndex ≥ s.audioBuffer.length := by
      rw [hi, hbuf, hidx]; omega
    rw [if_neg hnot, hb] at hbusy
    rcases hcount with hcount | hcount
    · refine ⟨hbusy, ?_, ?_, ?_, ?_⟩
      · show (playbackTick cfg s).isRecordingMode = false
        rw [playbackTick_isRecordingMode]; exact hr
      · show ((playbackTick cfg s).sampleCount + 1) % 2 ^ 32 = k + 1
        rw [hcount, hcnt, Nat.mod_eq_of_lt h32]
      · show (playbackTick cfg s).audioBuffer = buf
        rw [playbackTick_audioBuffer]; exact hbuf
      · show (playbackTick cfg s).sampleIndex = ceilDiv (k + 1) cfg.INTERP_RATE
        rw [hi, hidx, e]
    · rw [hcount] at hbusy; simp at hbusy
  · have e := ceilDiv_succ_of_mod_ne k _ hD hc
    rw [hcnt, if_neg hc] at hi
    have hnot : ¬ (playbackTick cfg s).sampleIndex ≥ s.audioBuffer.length := by
      rw [hi, hbuf, hidx]; omega
    rw [if_neg hnot, hb] at hbusy
    rcases hcount with hcount | hcount
    · refine ⟨hbusy, ?_, ?_, ?_, ?_⟩
      · show (playbackTick cfg s).isRecordingMode = false
        rw [playbackTick_isRecordingMode]; exact hr
      · show ((playbackTick cfg s).sampleCount + 1) % 2 ^ 32 = k + 1
        rw [hcount, hcnt, Nat.mod_eq_of_lt h32]
      · show (playbackTick cfg s).audioBuffer = buf
        rw [playbackTick_audioBuffer]; exact hbuf
      · show (playbackTick cfg s).sampleIndex = ceilDiv (k + 1) cfg.INTERP_RATE
        rw [hi, hidx, e]
    · rw [hcount] at hbusy; simp at hbusy

/-- The tick on which a playback session reads its last sample leaves the machine Idle. -/
theorem playingAt_last_tick (cfg : Config) (s : VoiceMessage) (buf : List Int) (adcValue : Nat)
    (hD : 1 ≤ cfg.INTERP_RATE) (hL : 1 ≤ buf.length)
    (h : PlayingAt cfg s buf (cfg.INTERP_RATE * (buf.length - 1))) :
    (OnTimer cfg s adcValue).isBusy = false
    ∧ (OnTimer cfg s adcValue).audioBuffer = buf := by
  obtain ⟨hb, hr, hcnt, hbuf, hidx⟩ := h
  rw [ceilDiv_mul _ _ hD] at hidx
  rw [OnTimer_playing cfg s adcValue hb hr]
  have hi := playbackTick_sampleIndex cfg s
  have hbusy := playbackTick_isBusy cfg s
  have hc : s.sampleCount % cfg.INTERP_RATE = 0 := by
    rw [hcnt]; exact Nat.mul_mod_right _ _
  rw [if_pos hc] at hi
  have hge : (playbackTick cfg s).sampleIndex ≥ s.audioBuffer.length := by
    rw [hi, hbuf, hidx]; omega
  rw [if_pos hge] at hbusy
  exact ⟨hbusy, by show (playbackTick cfg s).audioBuffer = buf
                   rw [playbackTick_audioBuffer]; exact hbuf⟩

theorem playingAt_run (cfg : Config) (hD : 1 ≤ cfg.INTERP_RATE) (buf : List Int)
    (adcValues : List Nat) :
    ∀ (s : VoiceMessage) (j : Nat), PlayingAt cfg s buf j →
      j + adcValues.length ≤ cfg.INTERP_RATE * (buf.length - 1) →
      j + adcValues.length < 2 ^ 32 →
      PlayingAt cfg (run cfg s (adcValues.map Action.tick)) buf (j + adcValues.length) := by
  induction adcValues with
  | nil => intro s j h _ _; simpa using h
  | cons a as ih =>
    intro s j h hk h32
    simp only [List.length_cons] at hk h32
    have h1 := playingAt_tick cfg s buf j a hD h (by omega) (by omega)
    have h2 := ih (OnTimer cfg s a) (j + 1) h1 (by omega) (by omega)
    simp only [List.map_cons, run, step, List.length_cons]
    have e : j + (as.length + 1) = j + 1 + as.length := by omega
    rw [e]; exact h2

end VoiceMessage

namespace VoiceMessage

theorem run_append (cfg : Config) (as bs : List Action) :
    ∀ s : VoiceMessage, run cfg s (as ++ bs) = run cfg (run cfg s as) bs := by
  induction as with
  | nil => intro s; rfl
  | cons a as ih => intro s; simp only [List.cons_append, run]; exact ih _

theorem ceilDiv_zero (D : Nat) : ceilDiv 0 D = 0 := by
  unfold ceilDiv
  rcases Nat.eq_zero_or_pos D with h | h
  · subst h; rfl
  · exact Nat.div_eq_of_lt (by omega)

/-- A successful `StartRecording` on an Idle machine whose counter is 0 and whose buffer has not
been reallocated opens a recording session at phase 0. -/
theorem recordingAt_StartRecording (cfg : Config) (s : VoiceMessage)
    (hidle : s.isBusy = false) (hcnt : s.sampleCount = 0)
    (hcap : s.audioCapacity = cfg.BUFFER_SIZE) :
    RecordingAt cfg (s.StartRecording true).2 0 := by
  by_cases ht : s.timerStarted = true <;>
    simp [RecordingAt, StartRecording, StartProcessing, StartTimer, hidle, hcnt, hcap, ht,
      ceilDiv_zero]

/-- A successful `StartPlayback` on an Idle machine whose counter is 0 and whose buffer is not
empty opens a playback session at phase 0. -/
theorem playingAt_StartPlayback (cfg : Config) (s : VoiceMessage)
    (hidle : s.isBusy = false) (hcnt : s.sampleCount = 0) (hL : 1 ≤ s.audioBuffer.length) :
    PlayingAt cfg (s.StartPlayback true).2 s.audioBuffer 0 := by
  have hne : s.audioBuffer ≠ [] := by
    intro h; rw [h] at hL; simp at hL
  by_cases ht : s.timerStarted = true <;>
    simp [PlayingAt, StartPlayback, StartProcessing, StartTimer, hidle, hcnt, hne, ht,
      ceilDiv_zero]

/-- A recording session that starts at phase 0 is Recording after each of its first
`DECIM_RATE * (BUFFER_SIZE - 1)` ticks and Idle with a full buffer after the next one. -/
theorem recording_session_length (cfg : Config) (s : VoiceMessage)
    (hD : 1 ≤ cfg.DECIM_RATE) (hC : 1 ≤ cfg.BUFFER_SIZE)
    (h32 : cfg.DECIM_RATE * (cfg.BUFFER_SIZE - 1) < 2 ^ 32)
    (h : RecordingAt cfg s 0) (adcValues : List Nat) :
    (adcValues.length ≤ cfg.DECIM_RATE * (cfg.BUFFER_SIZE - 1) →
      RecordingAt cfg (run cfg s (adcValues.map Action.tick)) adcValues.length)
    ∧ (adcValues.length = cfg.DECIM_RATE * (cfg.BUFFER_SIZE - 1) + 1 →
      (run cfg s (adcValues.map Action.tick)).isBusy = false
      ∧ (run cfg s (adcValues.map Action.tick)).audioBuffer.length = cfg.BUFFER_SIZE) := by
  constructor
  · intro hk
    have h1 := recordingAt_run cfg hD adcValues s 0 h (by omega) (by omega)
    simpa using h1
  · intro hk
    have hne : adcValues ≠ [] := by
      intro h0; rw [h0] at hk; simp at hk
    have hsplit := List.dropLast_append_getLast hne
    have hlen : adcValues.dropLast.length = cfg.DECIM_RATE * (cfg.BUFFER_SIZE - 1) := by
      rw [List.length_dropLast]; omega
    have h1 := recordingAt_run cfg hD adcValues.dropLast s 0 h (by omega) (by omega)
    rw [Nat.zero_add, hlen] at h1
    rw [← hsplit, List.map_append, run_append]
    exact recordingAt_last_tick cfg _ _ hD hC h1

/-- A playback session that starts at phase 0 is Playing after each of its first
`INTERP_RATE * (L - 1)` ticks and Idle after the next one, `L` being the buffer length. -/
theorem playback_session_length (cfg : Config) (s : VoiceMessage) (buf : List Int)
    (hD : 1 ≤ cfg.INTERP_RATE) (hL : 1 ≤ buf.length)
    (h32 : cfg.INTERP_RATE * (buf.length - 1) < 2 ^ 32)
    (h : PlayingAt cfg s buf 0) (adcValues : List Nat) :
    (adcValues.length ≤ cfg.INTERP_RATE * (buf.length - 1) →
      PlayingAt cfg (run cfg s (adcValues.map Action.tick)) buf adcValues.length)
    ∧ (adcValues.length = cfg.INTERP_RATE * (buf.length - 1) + 1 →
      (run cfg s (adcValues.map Action.tick)).isBusy = false
      ∧ (run cfg s (adcValues.map Action.tick)).audioBuffer = buf) := by
  constructor
  · intro hk
    have h1 := playingAt_run cfg hD buf adcValues s 0 h (by omega) (by omega)
    simpa using h1
  · intro hk
    have hne : adcValues ≠ [] := by
      intro h0; rw [h0] at hk; simp at hk
    have hsplit := List.dropLast_append_getLast hne
    have hlen : adcValues.dropLast.length = cfg.INTERP_RATE * (buf.length - 1) := by
      rw [List.length_dropLast]; omega
    have h1 := playingAt_run cfg hD buf adcValues.dropLast s 0 h (by omega) (by omega)
    rw [Nat.zero_add, hlen] at h1
    rw [← hsplit, List.map_append, run_append]
    exact playingAt_last_tick cfg _ buf _ hD hL h1

end VoiceMessage

namespace VoiceMessage

/-- C20. For a recording session started on a freshly constructed machine with decimation
factor `D` and buffer capacity `C ≥ 1`, after `k` ticks with `k ≤ D * (C - 1)` (and `k` within
the range of the 32-bit counter) the machine is still Recording, `sampleCounter` equals `k`, and
the buffer length equals the ceiling of `k / D`. -/
theorem recording_progress (cfg : Config) (coeffs : List ℚ) (hC : 1 ≤ cfg.BUFFER_SIZE)
    (adcValues : List Nat)
    (hk : adcValues.length ≤ cfg.DECIM_RATE * (cfg.BUFFER_SIZE - 1))
    (h32 : adcValues.length < 2 ^ 32) :
    (run cfg (new cfg coeffs) (.startRecording true :: adcValues.map Action.tick)).isBusy = true
    ∧ (run cfg (new cfg coeffs)
        (.startRecording true :: adcValues.map Action.tick)).isRecordingMode = true
    ∧ (run cfg (new cfg coeffs)
        (.startRecording true :: adcValues.map Action.tick)).sampleCount = adcValues.length
    ∧ (run cfg (new cfg coeffs)
        (.startRecording true :: adcValues.map Action.tick)).audioBuffer.length
          = ceilDiv adcValues.length cfg.DECIM_RATE := by
  have _ := hC
  have h0 : RecordingAt cfg ((new cfg coeffs).StartRecording true).2 0 :=
    recordingAt_StartRecording cfg (new cfg coeffs) rfl rfl rfl
  have key : RecordingAt cfg
      (run cfg (new cfg coeffs) (.startRecording true :: adcValues.map Action.tick))
      adcValues.length := by
    simp only [run, step]
    rcases Nat.eq_zero_or_pos cfg.DECIM_RATE with hD | hD
    · rw [hD, Nat.zero_mul] at hk
      have hnil : adcValues = [] := List.length_eq_zero.1 (by omega)
      subst hnil
      exact h0
    · have h1 := recordingAt_run cfg hD adcValues _ 0 h0 (by omega) (by omega)
      simpa using h1
  exact ⟨key.1, key.2.1, key.2.2.1, key.2.2.2.2⟩

/-- Witness for C20: source configuration, six ticks into the first recording. -/
theorem recording_progress_witness :
    (run Config.source (new Config.source [1])
      (.startRecording true :: [2048, 2049, 2050, 2051, 2052, 2053].map Action.tick)).sampleCount
      = 6
    ∧ (run Config.source (new Config.source [1])
      (.startRecording true
        :: [2048, 2049, 2050, 2051, 2052, 2053].map Action.tick)).audioBuffer.length = 2 :=
  ⟨(recording_progress Config.source [1] (by decide)
      [2048, 2049, 2050, 2051, 2052, 2053] (by decide) (by decide)).2.2.1,
    (recording_progress Config.source [1] (by decide)
      [2048, 2049, 2050, 2051, 2052, 2053] (by decide) (by decide)).2.2.2⟩

/-- C11 (counterexample). Capacity 4, decimation factor 4, taps `[1]`: after 13 ticks of input
100, and so after tick 15 as well, the machine is Idle, not Recording. -/
theorem example_scenario_stops_before_tick_16 :
    (run ⟨4, 4, 1023⟩ (new ⟨4, 4, 1023⟩ [1])
      (.startRecording true :: (List.replicate 13 100).map Action.tick)).isBusy = false
    ∧ (run ⟨4, 4, 1023⟩ (new ⟨4, 4, 1023⟩ [1])
      (.startRecording true :: (List.replicate 15 100).map Action.tick)).isBusy = false := by
  refine ⟨by decide, by decide⟩

/-- C11 (amended). With buffer capacity 4 and decimation factor 4, starting a recording on a
freshly constructed machine and feeding ticks of raw input value 100: the machine is still
Recording after each of ticks 1..12 and becomes Idle during tick 13, with exactly 4 entries in
the buffer; later ticks, up to tick 16 and beyond, change nothing. -/
theorem example_scenario (coeffs : List ℚ) (pwm k : Nat) :
    (k ≤ 12 →
      (run ⟨4, 4, pwm⟩ (new ⟨4, 4, pwm⟩ coeffs)
        (.startRecording true :: (List.replicate k 100).map Action.tick)).isBusy = true
      ∧ (run ⟨4, 4, pwm⟩ (new ⟨4, 4, pwm⟩ coeffs)
        (.startRecording true :: (List.replicate k 100).map Action.tick)).isRecordingMode = true)
    ∧ (13 ≤ k →
      (run ⟨4, 4, pwm⟩ (new ⟨4, 4, pwm⟩ coeffs)
        (.startRecording true :: (List.replicate k 100).map Action.tick)).isBusy = false
      ∧ (run ⟨4, 4, pwm⟩ (new ⟨4, 4, pwm⟩ coeffs)
        (.startRecording true :: (List.replicate k 100).map Action.tick)).audioBuffer.length
          = 4) := by
  have h0 : RecordingAt ⟨4, 4, pwm⟩ ((new ⟨4, 4, pwm⟩ coeffs).StartRecording true).2 0 :=
    recordingAt_StartRecording ⟨4, 4, pwm⟩ (new ⟨4, 4, pwm⟩ coeffs) rfl rfl rfl
  constructor
  · intro hk
    have h1 := (recording_session_length ⟨4, 4, pwm⟩ _ (by simp) (by simp) (by simp) h0
      (List.replicate k 100)).1 (by simpa using hk)
    exact ⟨h1.1, h1.2.1⟩
  · intro hk
    have hsplit : List.replicate k 100 = List.replicate 13 100 ++ List.replicate (k - 13) 100 := by
      rw [← List.replicate_add]; congr 1; omega
    have h1 := (recording_session_length ⟨4, 4, pwm⟩ _ (by simp) (by simp) (by simp) h0
      (List.replicate 13 100)).2 (by simp)
    simp only [run, step]
    rw [hsplit, List.map_append, run_append, run_ticks_idle _ _ _ h1.1]
    exact h1

/-- Witness for C11 (amended): taps `[1]`, after tick 12 and after tick 16. -/
theorem example_scenario_witness :
    (run ⟨4, 4, 1023⟩ (new ⟨4, 4, 1023⟩ [1])
      (.startRecording true :: (List.replicate 12 100).map Action.tick)).isBusy = true
    ∧ (run ⟨4, 4, 1023⟩ (new ⟨4, 4, 1023⟩ [1])
      (.startRecording true :: (List.replicate 16 100).map Action.tick)).audioBuffer.length = 4 :=
  ⟨((example_scenario [1] 1023 12).1 (by decide)).1,
    ((example_scenario [1] 1023 16).2 (by decide)).2⟩

end VoiceMessage

namespace VoiceMessage

/-- C12 (counterexample). Source configuration, decimation factor 4, taps `[1]`. A message of
length 1, recorded and stopped, is played back: the machine is Idle after 1 tick, not after 4. A
message of length 2 is played back: the machine is Idle after 5 ticks, not after 8. -/
theorem playback_shorter_than_factor_times_length :
    (run Config.source (new Config.source [1])
      [.startRecording true, .tick 2048, .stop]).audioBuffer.length = 1
    ∧ (run Config.source (new Config.source [1])
      [.startRecording true, .tick 2048, .stop, .startPlayback true]).isBusy = true
    ∧ (run Config.source (new Config.source [1])
      [.startRecording true, .tick 2048, .stop, .startPlayback true, .tick 0]).isBusy = false
    ∧ (run Config.source (new Config.source [1])
      [.startRecording true, .tick 2048, .tick 2048, .tick 2048, .tick 2048, .tick 2048,
        .stop]).audioBuffer.length = 2
    ∧ (run Config.source (new Config.source [1])
      [.startRecording true, .tick 2048, .tick 2048, .tick 2048, .tick 2048, .tick 2048,
        .stop, .startPlayback true, .tick 0, .tick 0, .tick 0, .tick 0]).isBusy = true
    ∧ (run Config.source (new Config.source [1])
      [.startRecording true, .tick 2048, .tick 2048, .tick 2048, .tick 2048, .tick 2048,
        .stop, .startPlayback true, .tick 0, .tick 0, .tick 0, .tick 0, .tick 0]).isBusy
        = false := by
  refine ⟨by decide, by decide, by decide, by decide, by decide, by decide⟩

theorem StartPlayback_true (s : VoiceMessage) (hidle : s.isBusy = false)
    (hL : 1 ≤ s.audioBuffer.length) : (s.StartPlayback true).1 = true := by
  have hne : s.audioBuffer ≠ [] := by
    intro h; rw [h] at hL; simp at hL
  by_cases ht : s.timerStarted = true <;>
    simp [StartPlayback, StartProcessing, StartTimer, hidle, hne, ht]

theorem StartRecording_true (s : VoiceMessage) (hidle : s.isBusy = false) :
    (s.StartRecording true).1 = true := by
  by_cases ht : s.timerStarted = true <;>
    simp [StartRecording, StartProcessing, StartTimer, hidle, ht]

/-- C12 (amended). The interpolation factor equals the decimation factor `D ≥ 1`. From an Idle
state whose `sampleCounter` is 0: a playback session started by a successful `StartPlayback` on
a buffer of length `L ≥ 1` is Playing after each of its first `D * (L - 1)` ticks and Idle after
tick `D * (L - 1) + 1`, with the buffer unchanged; a recording session started by a successful
`StartRecording` on a buffer of capacity `C ≥ 1` is Recording after each of its first
`D * (C - 1)` ticks and Idle after tick `D * (C - 1) + 1`, with `C` samples in the buffer.
The session lengths are assumed to fit the 32-bit tick counter. -/
theorem session_tick_count (cfg : Config) (s : VoiceMessage) (hD : 1 ≤ cfg.DECIM_RATE)
    (hidle : s.isBusy = false) (hcnt : s.sampleCount = 0) (adcValues : List Nat) :
    cfg.INTERP_RATE = cfg.DECIM_RATE
    ∧ (1 ≤ s.audioBuffer.length →
        cfg.DECIM_RATE * (s.audioBuffer.length - 1) < 2 ^ 32 →
        (s.StartPlayback true).1 = true
        ∧ (adcValues.length ≤ cfg.DECIM_RATE * (s.audioBuffer.length - 1) →
            (run cfg (s.StartPlayback true).2 (adcValues.map Action.tick)).isBusy = true
            ∧ (run cfg (s.StartPlayback true).2
                (adcValues.map Action.tick)).isRecordingMode = false)
        ∧ (adcValues.length = cfg.DECIM_RATE * (s.audioBuffer.length - 1) + 1 →
            (run cfg (s.StartPlayback true).2 (adcValues.map Action.tick)).isBusy = false
            ∧ (run cfg (s.StartPlayback true).2 (adcValues.map Action.tick)).audioBuffer
                = s.audioBuffer))
    ∧ (1 ≤ cfg.BUFFER_SIZE → s.audioCapacity = cfg.BUFFER_SIZE →
        cfg.DECIM_RATE * (cfg.BUFFER_SIZE - 1) < 2 ^ 32 →
        (s.StartRecording true).1 = true
        ∧ (adcValues.length ≤ cfg.DECIM_RATE * (cfg.BUFFER_SIZE - 1) →
            (run cfg (s.StartRecording true).2 (adcValues.map Action.tick)).isBusy = true
            ∧ (run cfg (s.StartRecording true).2
                (adcValues.map Action.tick)).isRecordingMode = true)
        ∧ (adcValues.length = cfg.DECIM_RATE * (cfg.BUFFER_SIZE - 1) + 1 →
            (run cfg (s.StartRecording true).2 (adcValues.map Action.tick)).isBusy = false
            ∧ (run cfg (s.StartRecording true).2
                (adcValues.map Action.tick)).audioBuffer.length = cfg.BUFFER_SIZE)) := by
  refine ⟨rfl, ?_, ?_⟩
  · intro hL h32
    have h0 := playingAt_StartPlayback cfg s hidle hcnt hL
    have h1 := playback_session_length cfg (s.StartPlayback true).2 s.audioBuffer hD hL h32 h0
      adcValues
    refine ⟨StartPlayback_true s hidle hL, ?_, h1.2⟩
    intro hk
    exact ⟨(h1.1 hk).1, (h1.1 hk).2.1⟩
  · intro hC hcap h32
    have h0 := recordingAt_StartRecording cfg s hidle hcnt hcap
    have h1 := recording_session_length cfg (s.StartRecording true).2 hD hC h32 h0 adcValues
    refine ⟨StartRecording_true s hidle, ?_, h1.2⟩
    intro hk
    exact ⟨(h1.1 hk).1, (h1.1 hk).2.1⟩

/-- Witness for C12 (amended): source configuration, a message of length 2 recorded and
stopped; its playback is Idle after `4 * (2 - 1) + 1 = 5` ticks. -/
theorem session_tick_count_witness :
    (run Config.source
      ((run Config.source (new Config.source [1])
        [.startRecording true, .tick 2048, .tick 2048, .tick 2048, .tick 2048, .tick 2048,
          .stop]).StartPlayback true).2
      ([0, 0, 0, 0, 0].map Action.tick)).isBusy = false :=
  (((session_tick_count Config.source
      (run Config.source (new Config.source [1])
        [.startRecording true, .tick 2048, .tick 2048, .tick 2048, .tick 2048, .tick 2048,
          .stop])
      (by decide) (by decide) (by decide) [0, 0, 0, 0, 0]).2.1
    (by decide) (by decide)).2.2 (by decide)).1

end VoiceMessage

/-! ## Theorems: VoiceMessage, scaling and saturation -/

namespace VoiceMessage

theorem tdiv_eq_truncate (q : ℚ) : q.num.tdiv q.den = truncate q := by
  unfold truncate
  by_cases h : 0 ≤ q
  · rw [if_pos h, Rat.floor_def]
    exact Int.tdiv_eq_ediv (Rat.num_nonneg.2 h) (Int.ofNat_nonneg _)
  · rw [if_neg h]
    have hneg : 0 ≤ -q := by linarith
    have h1 : ⌈q⌉ = -⌊-q⌋ := by rw [Int.floor_neg, neg_neg]
    rw [h1, Rat.floor_def, Rat.neg_num, Rat.neg_den]
    have h2 : (-q.num).tdiv (q.den : Int) = (-q.num) / (q.den : Int) :=
      Int.tdiv_eq_ediv (by have := Rat.num_nonneg.2 hneg; simpa using this)
        (Int.ofNat_nonneg _)
    rw [← h2, Int.neg_tdiv, neg_neg]

/-- Within the range of `int16_t` the conversion is truncation toward zero. -/
theorem castInt16_eq_truncate (q : ℚ) (hlo : -(2 ^ 15) ≤ truncate q) (hhi : truncate q < 2 ^ 15) :
    castInt16 q = truncate q := by
  unfold castInt16
  rw [tdiv_eq_truncate]
  generalize truncate q = t at *
  simp only
  have h1 : ¬ t < -(2 ^ 31) := by omega
  have h2 : ¬ t > 2 ^ 31 - 1 := by omega
  rw [if_neg h1, if_neg h2]
  omega

theorem castInt8_of_range (v : Int) (hlo : -128 ≤ v) (hhi : v ≤ 127) : castInt8 v = v := by
  unfold castInt8; omega

theorem Saturate_range (v lo hi : Int) (h : lo ≤ hi) :
    lo ≤ Saturate v lo hi ∧ Saturate v lo hi ≤ hi := by
  unfold Saturate
  split
  · exact ⟨le_refl _, h⟩
  · split <;> constructor <;> omega

theorem le_truncate (q : ℚ) (n : Int) (h : (n : ℚ) ≤ q) : n ≤ truncate q := by
  unfold truncate
  split
  · exact Int.le_floor.2 h
  · have h1 : (n : ℚ) ≤ (⌈q⌉ : ℚ) := le_trans h (Int.le_ceil q)
    exact_mod_cast h1

theorem truncate_le (q : ℚ) (n : Int) (h : q ≤ (n : ℚ)) : truncate q ≤ n := by
  unfold truncate
  split
  · have h1 : (⌊q⌋ : ℚ) ≤ (n : ℚ) := le_trans (Int.floor_le q) h
    exact_mod_cast h1
  · exact Int.ceil_le.2 h

/-- The sample stored by a recording tick, in terms of the scaled filter output `q = f / 16`:
always within `[-128, 127]`; and while `q` truncated fits `int16_t`, it is 127 for `q > 127`,
-128 for `q < -128` and `q` truncated toward zero otherwise. -/
theorem recordSample_eq (s : VoiceMessage) (adcValue : Nat) :
    (-128 ≤ recordSample s adcValue ∧ recordSample s adcValue ≤ 127)
    ∧ (-(2 ^ 15) ≤ truncate ((s.lowpassFilter.Process ((adcValue : ℚ) - 2048)).1 / 16) →
        truncate ((s.lowpassFilter.Process ((adcValue : ℚ) - 2048)).1 / 16) < 2 ^ 15 →
        ((s.lowpassFilter.Process ((adcValue : ℚ) - 2048)).1 / 16 > 127 →
          recordSample s adcValue = 127)
        ∧ ((s.lowpassFilter.Process ((adcValue : ℚ) - 2048)).1 / 16 < -128 →
          recordSample s adcValue = -128)
        ∧ (-128 ≤ (s.lowpassFilter.Process ((adcValue : ℚ) - 2048)).1 / 16 →
          (s.lowpassFilter.Process ((adcValue : ℚ) - 2048)).1 / 16 ≤ 127 →
          recordSample s adcValue
            = truncate ((s.lowpassFilter.Process ((adcValue : ℚ) - 2048)).1 / 16))) := by
  unfold recordSample
  generalize (s.lowpassFilter.Process ((adcValue : ℚ) - 2048)).1 / 16 = q
  have hr := Saturate_range (castInt16 q) (-128) 127 (by decide)
  refine ⟨?_, ?_⟩
  · rw [castInt8_of_range _ hr.1 hr.2]; exact hr
  · intro hlo hhi
    rw [castInt8_of_range _ hr.1 hr.2, castInt16_eq_truncate q hlo hhi]
    refine ⟨?_, ?_, ?_⟩
    · intro h
      have h1 : (127 : Int) ≤ truncate q := le_truncate q 127 (by exact_mod_cast le_of_lt h)
      unfold Saturate
      split
      · omega
      · split <;> omega
    · intro h
      have h1 : truncate q ≤ (-128 : Int) := truncate_le q (-128) (by exact_mod_cast le_of_lt h)
      unfold Saturate
      split
      · rfl
      · split <;> omega
    · intro h1 h2
      have h3 : (-128 : Int) ≤ truncate q := le_truncate q (-128) (by exact_mod_cast h1)
      have h4 : truncate q ≤ (127 : Int) := truncate_le q 127 (by exact_mod_cast h2)
      unfold Saturate
      split
      · omega
      · split
        · omega
        · rfl

end VoiceMessage

namespace VoiceMessage

/-- A tick of a Recording machine whose counter is a multiple of `DECIM_RATE` appends
`recordSample`. -/
theorem OnTimer_appends_recordSample (cfg : Config) (s : VoiceMessage) (adcValue : Nat)
    (hb : s.isBusy = true) (hr : s.isRecordingMode = true)
    (hc : s.sampleCount % cfg.DECIM_RATE = 0) :
    (OnTimer cfg s adcValue).audioBuffer = s.audioBuffer ++ [recordSample s adcValue] := by
  rw [OnTimer_recording cfg s adcValue hb hr]
  show (recordTick cfg s adcValue).audioBuffer = _
  simp only [recordTick, hc, if_true]
  split <;> simp [pushBack, recordSample, Stop_audioBuffer]

/-- C13 (counterexample). Source configuration, one tap `272`, ADC reading 4095 on the first tick
of the first recording: the filtered value is `272 * 2047`, so `f / 16 = 34799 > 127`, yet the
sample appended is -128. -/
theorem large_value_wraps_in_recording :
    ((new Config.source [272]).lowpassFilter.Process (((4095 : Nat) : ℚ) - 2048)).1 / 16 = 34799
    ∧ (run Config.source (new Config.source [272])
        [.startRecording true, .tick 4095]).audioBuffer = [-128] := by
  constructor
  · simp [new, Initialize, FirFilter.new, FirFilter.Reset, FirFilter.Process,
      FirFilter.processLoop]
    norm_num
  · simp [run, step, new, Initialize, StartRecording, StartProcessing, StartTimer, OnTimer,
      recordTick, Config.source, FirFilter.new, FirFilter.Reset, FirFilter.Process,
      FirFilter.processLoop, pushBack, castInt16, castInt8, Saturate]
    norm_num

end VoiceMessage

namespace VoiceMessage

/-- C13 (amended). On a recording tick whose `sampleCounter` is a multiple of the decimation
factor the sample appended is `recordSample`, which always lies in `[-128, 127]`; and, with `f`
the filtered value of the tick, whenever `f / 16` truncated toward zero fits `int16_t` the
sample is exactly 127 when `f / 16 > 127`, exactly -128 when `f / 16 < -128`, and otherwise
`f / 16` truncated toward zero. -/
theorem recording_saturation (cfg : Config) (s : VoiceMessage) (adcValue : Nat)
    (hb : s.isBusy = true) (hr : s.isRecordingMode = true)
    (hc : s.sampleCount % cfg.DECIM_RATE = 0) :
    (OnTimer cfg s adcValue).audioBuffer = s.audioBuffer ++ [recordSample s adcValue]
    ∧ (-128 ≤ recordSample s adcValue ∧ recordSample s adcValue ≤ 127)
    ∧ (-(2 ^ 15) ≤ truncate ((s.lowpassFilter.Process ((adcValue : ℚ) - 2048)).1 / 16) →
        truncate ((s.lowpassFilter.Process ((adcValue : ℚ) - 2048)).1 / 16) < 2 ^ 15 →
        ((s.lowpassFilter.Process ((adcValue : ℚ) - 2048)).1 / 16 > 127 →
          recordSample s adcValue = 127)
        ∧ ((s.lowpassFilter.Process ((adcValue : ℚ) - 2048)).1 / 16 < -128 →
          recordSample s adcValue = -128)
        ∧ (-128 ≤ (s.lowpassFilter.Process ((adcValue : ℚ) - 2048)).1 / 16 →
          (s.lowpassFilter.Process ((adcValue : ℚ) - 2048)).1 / 16 ≤ 127 →
          recordSample s adcValue
            = truncate ((s.lowpassFilter.Process ((adcValue : ℚ) - 2048)).1 / 16))) :=
  ⟨OnTimer_appends_recordSample cfg s adcValue hb hr hc,
    (recordSample_eq s adcValue).1, (recordSample_eq s adcValue).2⟩

/-- Witness for C13 (amended): source configuration, one tap `1`, ADC reading 4095 on the first
tick of the first recording; `f / 16 = 2047 / 16 > 127` and the sample stored is 127. -/
theorem recording_saturation_witness :
    recordSample (run Config.source (new Config.source [1]) [.startRecording true]) 4095 = 127
    ∧ (OnTimer Config.source
        (run Config.source (new Config.source [1]) [.startRecording true]) 4095).audioBuffer
      = (run Config.source (new Config.source [1]) [.startRecording true]).audioBuffer
        ++ [recordSample
              (run Config.source (new Config.source [1]) [.startRecording true]) 4095] :=
  ⟨((recording_saturation Config.source
      (run Config.source (new Config.source [1]) [.startRecording true]) 4095
      (by decide) (by decide) (by decide)).2.2
      (by
        simp [run, step, new, Initialize, StartRecording, StartProcessing, StartTimer,
          FirFilter.new, FirFilter.Reset, FirFilter.Process, FirFilter.processLoop, truncate]
        norm_num)
      (by
        simp [run, step, new, Initialize, StartRecording, StartProcessing, StartTimer,
          FirFilter.new, FirFilter.Reset, FirFilter.Process, FirFilter.processLoop, truncate]
        norm_num)).1
      (by
        simp [run, step, new, Initialize, StartRecording, StartProcessing, StartTimer,
          FirFilter.new, FirFilter.Reset, FirFilter.Process, FirFilter.processLoop]
        norm_num),
    (recording_saturation Config.source
      (run Config.source (new Config.source [1]) [.startRecording true]) 4095
      (by decide) (by decide) (by decide)).1⟩

end VoiceMessage

namespace VoiceMessage

theorem castUInt16_of_range (v : Int) (hlo : 0 ≤ v) (hhi : v < 2 ^ 16) :
    (castUInt16 v : Int) = v := by
  unfold castUInt16
  rw [Int.emod_eq_of_lt hlo hhi]
  exact Int.toNat_of_nonneg hlo

theorem playbackLevel_def (cfg : Config) (s : VoiceMessage) :
    playbackLevel cfg s
      = castUInt16 (Saturate (castInt16 (playbackMapped cfg s)) 0 cfg.PWM_WRAP_VALUE) := rfl

/-- The level a playback tick writes, in terms of the mapped value `m`: always within
`[0, PWM_WRAP_VALUE]`; and while `m` truncated fits `int16_t`, it is 0 for `m < 0`,
`PWM_WRAP_VALUE` for `m > PWM_WRAP_VALUE` and `m` truncated toward zero otherwise. -/
theorem playbackLevel_eq (cfg : Config) (s : VoiceMessage) (hpwm : cfg.PWM_WRAP_VALUE < 2 ^ 16) :
    playbackLevel cfg s ≤ cfg.PWM_WRAP_VALUE
    ∧ (-(2 ^ 15) ≤ truncate (playbackMapped cfg s) →
        truncate (playbackMapped cfg s) < 2 ^ 15 →
        (playbackMapped cfg s < 0 → playbackLevel cfg s = 0)
        ∧ (playbackMapped cfg s > (cfg.PWM_WRAP_VALUE : ℚ) →
            playbackLevel cfg s = cfg.PWM_WRAP_VALUE)
        ∧ (0 ≤ playbackMapped cfg s → playbackMapped cfg s ≤ (cfg.PWM_WRAP_VALUE : ℚ) →
            (playbackLevel cfg s : Int) = truncate (playbackMapped cfg s))) := by
  rw [playbackLevel_def]
  generalize playbackMapped cfg s = m
  have hP : (0 : Int) ≤ (cfg.PWM_WRAP_VALUE : Int) := Int.ofNat_nonneg _
  have hP2 : (cfg.PWM_WRAP_VALUE : Int) < 2 ^ 16 := by exact_mod_cast hpwm
  have hr := Saturate_range (castInt16 m) 0 cfg.PWM_WRAP_VALUE hP
  have hcast := castUInt16_of_range _ hr.1 (lt_of_le_of_lt hr.2 hP2)
  refine ⟨?_, ?_⟩
  · have : (castUInt16 (Saturate (castInt16 m) 0 cfg.PWM_WRAP_VALUE) : Int)
        ≤ (cfg.PWM_WRAP_VALUE : Int) := by rw [hcast]; exact hr.2
    exact_mod_cast this
  · intro hlo hhi
    rw [castInt16_eq_truncate m hlo hhi] at hcast ⊢
    refine ⟨?_, ?_, ?_⟩
    · intro h
      have h1 : truncate m ≤ (0 : Int) := truncate_le m 0 (by exact_mod_cast le_of_lt h)
      have h2 : Saturate (truncate m) 0 cfg.PWM_WRAP_VALUE = 0 := by
        unfold Saturate
        split
        · rfl
        · split <;> omega
      rw [h2] at hcast ⊢
      exact_mod_cast hcast
    · intro h
      have h1 : (cfg.PWM_WRAP_VALUE : Int) ≤ truncate m :=
        le_truncate m _ (by exact_mod_cast le_of_lt h)
      have h2 : Saturate (truncate m) 0 cfg.PWM_WRAP_VALUE = cfg.PWM_WRAP_VALUE := by
        unfold Saturate
        split
        · omega
        · split <;> omega
      rw [h2] at hcast ⊢
      exact_mod_cast hcast
    · intro h1 h2
      have h3 : (0 : Int) ≤ truncate m := le_truncate m 0 (by exact_mod_cast h1)
      have h4 : truncate m ≤ (cfg.PWM_WRAP_VALUE : Int) :=
        truncate_le m _ (by exact_mod_cast h2)
      have h5 : Saturate (truncate m) 0 cfg.PWM_WRAP_VALUE = truncate m := by
        unfold Saturate
        split
        · omega
        · split
          · omega
          · rfl
      rw [h5] at hcast ⊢
      exact hcast

end VoiceMessage

namespace VoiceMessage

/-- An integer rounds to itself. -/
theorem roundHalfEven_intCast (n : Int) : roundHalfEven (n : ℚ) = n := by
  simp [roundHalfEven]

/-- Away from a tie, `roundHalfEven x` is the integer within one half of `x`. -/
theorem roundHalfEven_eq (x : ℚ) (z : Int) (h1 : (z : ℚ) - 1 / 2 < x) (h2 : x < (z : ℚ) + 1 / 2) :
    roundHalfEven x = z := by
  unfold roundHalfEven
  by_cases hx : (z : ℚ) ≤ x
  · have hf : ⌊x⌋ = z := Int.floor_eq_iff.2 ⟨hx, by linarith⟩
    rw [hf, if_pos (by linarith)]
  · have hx2 : x < (z : ℚ) := lt_of_not_le hx
    have hf : ⌊x⌋ = z - 1 := Int.floor_eq_iff.2 ⟨by push_cast; linarith, by push_cast; linarith⟩
    rw [hf]
    have h3 : ¬ (x - ((z - 1 : Int) : ℚ) < 1 / 2) := by push_cast; linarith
    have h4 : (1 : ℚ) / 2 < x - ((z - 1 : Int) : ℚ) := by push_cast; linarith
    rw [if_neg h3, if_pos h4]
    omega

/-- The binary exponent of a value between two consecutive powers of two. -/
theorem intLog_eq (q : ℚ) (e : Int) (h1 : (2 : ℚ) ^ e ≤ |q|) (h2 : |q| < (2 : ℚ) ^ (e + 1)) :
    Int.log 2 |q| = e := by
  have hpos : (0 : ℚ) < |q| := lt_of_lt_of_le (by positivity) h1
  have a : e ≤ Int.log 2 |q| := by
    rw [← Int.zpow_le_iff_le_log (by norm_num) hpos]
    simpa using h1
  have b : Int.log 2 |q| < e + 1 := by
    rw [← Int.lt_zpow_iff_log_lt (by norm_num) hpos]
    simpa using h2
  omega

/-- In the binade `2 ^ e ≤ |q| < 2 ^ (e + 1)` of a normal binary32 value, `roundF32 q` is the
nearest multiple of `2 ^ (e - 23)`. -/
theorem roundF32_eq (q : ℚ) (e : Int) (h1 : (2 : ℚ) ^ e ≤ |q|) (h2 : |q| < (2 : ℚ) ^ (e + 1))
    (he : -126 ≤ e) :
    roundF32 q = (roundHalfEven (q / (2 : ℚ) ^ (e - 23)) : ℚ) * (2 : ℚ) ^ (e - 23) := by
  unfold roundF32
  rw [intLog_eq q e h1 h2, max_eq_left he]

/-- Zero is a binary32 value. -/
theorem roundF32_zero : roundF32 0 = 0 := by
  simp [roundF32, roundHalfEven]

/-- Integers below `2 ^ 24` in magnitude are binary32 values. -/
theorem roundF32_intCast (n : Int) (h : n.natAbs < 2 ^ 24) : roundF32 (n : ℚ) = n := by
  by_cases h0 : n = 0
  · subst h0; simpa using roundF32_zero
  · have hne : n.natAbs ≠ 0 := by simpa using h0
    have habs : |(n : ℚ)| = ((n.natAbs : ℕ) : ℚ) := by
      rw [Nat.cast_natAbs, Int.cast_abs]
    have hlog : Int.log 2 |(n : ℚ)| = (Nat.log 2 n.natAbs : ℕ) := by
      rw [habs, Int.log_natCast]
    have hL : Nat.log 2 n.natAbs < 24 := Nat.log_lt_of_lt_pow hne h
    unfold roundF32
    simp only
    rw [hlog, max_eq_left (by omega)]
    obtain ⟨k, hk⟩ : ∃ k : ℕ, ((Nat.log 2 n.natAbs : ℕ) : ℤ) - 23 = -(k : ℤ) :=
      ⟨23 - Nat.log 2 n.natAbs, by omega⟩
    rw [hk, zpow_neg, zpow_natCast, div_inv_eq_mul]
    have hcast : (n : ℚ) * (2 : ℚ) ^ k = ((n * 2 ^ k : ℤ) : ℚ) := by push_cast; ring
    rw [hcast, roundHalfEven_intCast]
    push_cast
    field_simp

/-- Truncation of a value that is not negative, from its integer part. -/
theorem truncate_eq_of_nonneg (q : ℚ) (z : Int) (h0 : 0 ≤ q) (h1 : (z : ℚ) ≤ q)
    (h2 : q < (z : ℚ) + 1) : truncate q = z := by
  unfold truncate
  rw [if_pos h0]
  exact Int.floor_eq_iff.2 ⟨h1, h2⟩

/-- Truncation of a negative value, from its integer part. -/
theorem truncate_eq_of_neg (q : ℚ) (z : Int) (h0 : q < 0) (h1 : (z : ℚ) - 1 < q)
    (h2 : q ≤ (z : ℚ)) : truncate q = z := by
  unfold truncate
  rw [if_neg (not_le.2 h0)]
  exact Int.ceil_eq_iff.2 ⟨h1, h2⟩

/-- C14 (counterexample). Source configuration. With the single tap `16`, a recording tick with
ADC reading 4095 stores the sample 127; on the first playback tick the filter output is
`16 * 127`, the mapped value is `(4 * 2032 + 128) * 4 = 33024 > 1023`, yet the level written
is 0. With the single tap `0.3f = 5033165 / 2 ^ 24`, a recording tick with ADC reading 714 stores
the sample -25; on the first playback tick the formula `(4 * y + 128) * 4` in exact arithmetic
truncates to 391, while the level written, computed in binary32, is 392. -/
theorem playback_level_differs_from_formula :
    (run Config.source (new Config.source [16])
      [.startRecording true, .tick 4095, .stop, .startPlayback true]).audioBuffer = [127]
    ∧ playbackMappedExact Config.source
        (run Config.source (new Config.source [16])
          [.startRecording true, .tick 4095, .stop, .startPlayback true]) = 33024
    ∧ playbackMapped Config.source
        (run Config.source (new Config.source [16])
          [.startRecording true, .tick 4095, .stop, .startPlayback true]) = 33024
    ∧ (run Config.source (new Config.source [16])
      [.startRecording true, .tick 4095, .stop, .startPlayback true, .tick 0]).pwmLevel = 0
    ∧ (run Config.source (new Config.source [5033165 / 16777216])
      [.startRecording true, .tick 714, .stop, .startPlayback true]).audioBuffer = [-25]
    ∧ truncate (playbackMappedExact Config.source
        (run Config.source (new Config.source [5033165 / 16777216])
          [.startRecording true, .tick 714, .stop, .startPlayback true])) = 391
    ∧ (run Config.source (new Config.source [5033165 / 16777216])
      [.startRecording true, .tick 714, .stop, .startPlayback true, .tick 0]).pwmLevel
        = 392 := by
  have r4 : roundF32 4 = 4 := by simpa using roundF32_intCast 4 (by decide)
  have r8128 : roundF32 8128 = 8128 := by simpa using roundF32_intCast 8128 (by decide)
  have r8256 : roundF32 8256 = 8256 := by simpa using roundF32_intCast 8256 (by decide)
  have r33024 : roundF32 33024 = 33024 := by simpa using roundF32_intCast 33024 (by decide)
  have r392 : roundF32 392 = 392 := by simpa using roundF32_intCast 392 (by decide)
  have ra : roundF32 (-(125829125 / 4194304)) = -(15728641 / 524288) := by
    rw [roundF32_eq _ 4 (by norm_num [abs_of_neg]) (by norm_num [abs_of_neg]) (by norm_num),
      roundHalfEven_eq _ (-15728641) (by norm_num) (by norm_num)]
    norm_num
  have rb : roundF32 (51380223 / 524288) = 98 := by
    rw [roundF32_eq _ 6 (by norm_num [abs_of_pos]) (by norm_num [abs_of_pos]) (by norm_num),
      roundHalfEven_eq _ 12845056 (by norm_num) (by norm_num)]
    norm_num
  have c25 : castInt16 (-(3357121055 / 134217728)) = -25 := by
    rw [castInt16_eq_truncate] <;>
      rw [truncate_eq_of_neg _ (-25) (by norm_num) (by norm_num) (by norm_num)] <;> norm_num
  have c2047 : castInt16 2047 = 2047 := by
    rw [castInt16_eq_truncate] <;>
      rw [truncate_eq_of_nonneg _ 2047 (by norm_num) (by norm_num) (by norm_num)] <;> norm_num
  have c33024 : castInt16 33024 = -32512 := by
    unfold castInt16; norm_num
  have c392 : castInt16 392 = 392 := by
    rw [castInt16_eq_truncate] <;>
      rw [truncate_eq_of_nonneg _ 392 (by norm_num) (by norm_num) (by norm_num)] <;> norm_num
  refine ⟨?_, ?_, ?_, ?_, ?_, ?_, ?_⟩
  · norm_num [run, step, new, Initialize, StartRecording, StartPlayback, StartProcessing,
      StartTimer, OnTimer, recordTick, Config.source, FirFilter.new, FirFilter.Reset,
      FirFilter.Process, FirFilter.processLoop, pushBack, Stop, StopTimer, c2047, Saturate,
      castInt8]
  · norm_num [run, step, new, Initialize, StartRecording, StartPlayback, StartProcessing,
      StartTimer, OnTimer, recordTick, Config.source, FirFilter.new, FirFilter.Reset,
      FirFilter.Process, FirFilter.processLoop, pushBack, Stop, StopTimer, c2047, Saturate,
      castInt8, playbackMappedExact, playbackData, Config.INTERP_RATE]
  · norm_num [run, step, new, Initialize, StartRecording, StartPlayback, StartProcessing,
      StartTimer, OnTimer, recordTick, Config.source, FirFilter.new, FirFilter.Reset,
      FirFilter.Process, FirFilter.processLoop, pushBack, Stop, StopTimer, c2047, Saturate,
      castInt8, playbackMapped, playbackData, Config.INTERP_RATE, r4, r8128, r8256, r33024]
  · norm_num [run, step, new, Initialize, StartRecording, StartPlayback, StartProcessing,
      StartTimer, OnTimer, recordTick, playbackTick, playbackLevel, Config.source,
      FirFilter.new, FirFilter.Reset, FirFilter.Process, FirFilter.processLoop, pushBack, Stop,
      StopTimer, c2047, c33024, Saturate, castInt8, castUInt16, playbackMapped, playbackData,
      Config.INTERP_RATE, r4, r8128, r8256, r33024]
  · norm_num [run, step, new, Initialize, StartRecording, StartPlayback, StartProcessing,
      StartTimer, OnTimer, recordTick, Config.source, FirFilter.new, FirFilter.Reset,
      FirFilter.Process, FirFilter.processLoop, pushBack, Stop, StopTimer, c25, Saturate,
      castInt8]
  · norm_num [run, step, new, Initialize, StartRecording, StartPlayback, StartProcessing,
      StartTimer, OnTimer, recordTick, Config.source, FirFilter.new, FirFilter.Reset,
      FirFilter.Process, FirFilter.processLoop, pushBack, Stop, StopTimer, c25, Saturate,
      castInt8, playbackMappedExact, playbackData, Config.INTERP_RATE]
    exact truncate_eq_of_nonneg _ 391 (by norm_num) (by norm_num) (by norm_num)
  · norm_num [run, step, new, Initialize, StartRecording, StartPlayback, StartProcessing,
      StartTimer, OnTimer, recordTick, playbackTick, playbackLevel, Config.source,
      FirFilter.new, FirFilter.Reset, FirFilter.Process, FirFilter.processLoop, pushBack, Stop,
      StopTimer, c25, c392, Saturate, castInt8, castUInt16, playbackMapped, playbackData,
      Config.INTERP_RATE, r4, ra, rb, r392]
    rfl

/-- C14 (amended). On every playback tick the value written to the output driver is
`playbackLevel`, which always lies in `[0, PWM_WRAP_VALUE]`; and, with `y` the filter output for
the tick's input and `m` the value of `(y * INTERP_RATE + 128) * 4` as the code evaluates it,
every operation rounded to binary32 (`playbackMapped`), whenever `m` truncated toward zero fits
`int16_t` the value is 0 when `m < 0`, `PWM_WRAP_VALUE` when `m > PWM_WRAP_VALUE`, and otherwise
`m` truncated toward zero. -/
theorem playback_saturation (cfg : Config) (s : VoiceMessage) (adcValue : Nat)
    (hpwm : cfg.PWM_WRAP_VALUE < 2 ^ 15)
    (hb : s.isBusy = true) (hr : s.isRecordingMode = false) :
    (OnTimer cfg s adcValue).pwmLevel = playbackLevel cfg s
    ∧ playbackLevel cfg s ≤ cfg.PWM_WRAP_VALUE
    ∧ (-(2 ^ 15) ≤ truncate (playbackMapped cfg s) →
        truncate (playbackMapped cfg s) < 2 ^ 15 →
        (playbackMapped cfg s < 0 → playbackLevel cfg s = 0)
        ∧ (playbackMapped cfg s > (cfg.PWM_WRAP_VALUE : ℚ) →
            playbackLevel cfg s = cfg.PWM_WRAP_VALUE)
        ∧ (0 ≤ playbackMapped cfg s → playbackMapped cfg s ≤ (cfg.PWM_WRAP_VALUE : ℚ) →
            (playbackLevel cfg s : Int) = truncate (playbackMapped cfg s))) := by
  have h := playbackLevel_eq cfg s (by omega)
  refine ⟨?_, h.1, h.2⟩
  rw [OnTimer_playing cfg s adcValue hb hr]
  exact playbackTick_pwmLevel cfg s

/-- Witness for C14 (amended): source configuration, one tap `1`, the sample 127, stored from
ADC reading 4080, played back; every intermediate value is an integer, the mapped value is
`(4 * 127 + 128) * 4 = 2544 > 1023` and the level written is 1023. -/
theorem playback_saturation_witness :
    playbackLevel Config.source
      (run Config.source (new Config.source [1])
        [.startRecording true, .tick 4080, .stop, .startPlayback true]) = 1023 :=
  have r4 : roundF32 4 = 4 := by simpa using roundF32_intCast 4 (by decide)
  have r508 : roundF32 508 = 508 := by simpa using roundF32_intCast 508 (by decide)
  have r636 : roundF32 636 = 636 := by simpa using roundF32_intCast 636 (by decide)
  have r2544 : roundF32 2544 = 2544 := by simpa using roundF32_intCast 2544 (by decide)
  have c127 : castInt16 127 = 127 := by
    rw [castInt16_eq_truncate] <;>
      rw [truncate_eq_of_nonneg _ 127 (by norm_num) (by norm_num) (by norm_num)] <;> norm_num
  have hm : playbackMapped Config.source
      (run Config.source (new Config.source [1])
        [.startRecording true, .tick 4080, .stop, .startPlayback true]) = 2544 := by
    norm_num [run, step, new, Initialize, StartRecording, StartPlayback, StartProcessing,
      StartTimer, OnTimer, recordTick, Config.source, FirFilter.new, FirFilter.Reset,
      FirFilter.Process, FirFilter.processLoop, pushBack, Stop, StopTimer, c127, Saturate,
      castInt8, playbackMapped, playbackData, Config.INTERP_RATE, r4, r508, r636, r2544]
  have ht : truncate (2544 : ℚ) = 2544 :=
    truncate_eq_of_nonneg _ 2544 (by norm_num) (by norm_num) (by norm_num)
  ((playback_saturation Config.source
      (run Config.source (new Config.source [1])
        [.startRecording true, .tick 4080, .stop, .startPlayback true]) 0
      (by decide) (by decide) (by decide)).2.2
    (by rw [hm, ht]; norm_num)
    (by rw [hm, ht]; norm_num)).2.1
    (by rw [hm]; norm_num [Config.source])

end VoiceMessage
